import Mathlib

/-!
Verification of the xgen XSD-to-Go code generator: a shallow embedding of the
parser facet/structural handlers and of the Go emitter (genGo.go), together
with theorems settling the specification claims about tag building, validator
synthesis, restriction projection, optionality wrapping, parser scoping and
emitter determinism.
-/

namespace Xgen

/-- Modelled from the spec (the data model lives in proto.go, which is not in
the provided sources): a Restriction records enum values, a pattern string,
length bounds with presence flags, and numeric bounds with presence and
exclusivity flags.  Numeric bounds are float64 in Go; here they are rationals
(all values exercised by the theorems are integral). -/
structure Restriction where
  Enum : List String := []
  PatternStr : String := ""
  Length : Int := 0
  HasLength : Bool := false
  MinLength : Int := 0
  HasMinLength : Bool := false
  MaxLength : Int := 0
  HasMaxLength : Bool := false
  Min : Rat := 0
  HasMin : Bool := false
  MinExclusive : Bool := false
  Max : Rat := 0
  HasMax : Bool := false
  MaxExclusive : Bool := false
deriving DecidableEq

/-- Modelled from the spec: a SimpleType has a name (empty when anonymous),
documentation, base reference, List/Union flags, union member name-to-type
pairs, and a Restriction. -/
structure SimpleType where
  Name : String := ""
  Doc : String := ""
  Base : String := ""
  ListFlag : Bool := false
  Union : Bool := false
  MemberTypes : List (String × String) := []
  Restriction : Restriction := {}
deriving DecidableEq

/-- Modelled from the spec: an Element has a name, resolved Type, original
TypeRef, Optional and Plural flags and an inline Restriction. -/
structure Element where
  Name : String := ""
  Doc : String := ""
  TypeName : String := ""
  TypeRef : String := ""
  Optional : Bool := false
  Plural : Bool := false
  Restriction : Restriction := {}
deriving DecidableEq

/-- Modelled from the spec: an Attribute has the same shape as an Element. -/
structure Attribute where
  Name : String := ""
  Doc : String := ""
  TypeName : String := ""
  TypeRef : String := ""
  Optional : Bool := false
  Plural : Bool := false
  Restriction : Restriction := {}
deriving DecidableEq

/-- Modelled from the spec: a reference to a (possibly nested) group, carrying
the name, the referenced group name and the plurality flag. -/
structure GroupRef where
  Name : String := ""
  Ref : String := ""
  Plural : Bool := false
deriving DecidableEq

/-- Modelled from the spec: a Group has a name, documentation, elements and
nested group references. -/
structure Group where
  Name : String := ""
  Doc : String := ""
  Elements : List Element := []
  Groups : List GroupRef := []
deriving DecidableEq

/-- Modelled from the spec: an AttributeGroup has a name, a reference name,
documentation and attributes. -/
structure AttributeGroup where
  Name : String := ""
  Ref : String := ""
  Doc : String := ""
  Attributes : List Attribute := []
deriving DecidableEq

/-- Modelled from the spec: a ComplexType has a name, documentation, base
reference, attributes, elements, group references and attribute-group
references. -/
structure ComplexType where
  Name : String := ""
  Doc : String := ""
  Base : String := ""
  Attributes : List Attribute := []
  Elements : List Element := []
  Groups : List GroupRef := []
  AttributeGroup : List AttributeGroup := []
deriving DecidableEq

/-- Modelled from the spec: ProtoTree entries are a tagged union of the schema
entities (Go uses a heterogeneous interface slice). -/
inductive TreeEnt where
  | simpleType (st : SimpleType)
  | complexType (ct : ComplexType)
  | group (g : Group)
  | attributeGroup (ag : AttributeGroup)
  | element (e : Element)
  | attribute (a : Attribute)
deriving DecidableEq

/-! ## String utilities mirroring the Go standard-library calls used by genGo -/

/-- Splits a character list at characters satisfying the predicate. -/
def splitOnPredList (p : Char → Bool) : List Char → List (List Char)
  | [] => [[]]
  | c :: cs =>
    match splitOnPredList p cs with
    | [] => if p c then [[], []] else [[c]]
    | g :: gs => if p c then [] :: g :: gs else (c :: g) :: gs

/-- Mirrors Go strings.FieldsFunc: splits at separator characters and drops
empty fields. -/
def fieldsFunc (s : String) (p : Char → Bool) : List String :=
  ((splitOnPredList p s.toList).map (fun l => String.mk l)).filter (fun x => x != "")

/-- Mirrors Go strings.Contains via an explicit scan over tails. -/
def strContains (s sub : String) : Bool :=
  s.toList.tails.any (fun t => sub.toList.isPrefixOf t)

/-- Reports that pre is a prefix of s, at the character-list level. -/
def strStartsWith (s pre : String) : Bool :=
  pre.toList.isPrefixOf s.toList

/-- Mirrors Go strings.TrimSpace on ASCII whitespace. -/
def trimSpace (s : String) : String :=
  String.mk (((s.toList.dropWhile Char.isWhitespace).reverse.dropWhile Char.isWhitespace).reverse)

/-- Mirrors the Go call strings.ContainsAny(s, " \t\n\r") used by the enum
whitespace guard in buildValidateTag. -/
def containsGoWhitespace (s : String) : Bool :=
  s.toList.any (fun c => c == ' ' || c == '\t' || c == '\n' || c == '\r')

/-- Modelled from the spec: MakeFirstUpperCase (utils.go) capitalizes the
first character of a word. -/
def MakeFirstUpperCase (s : String) : String :=
  match s.toList with
  | [] => ""
  | c :: cs => String.mk (c.toUpper :: cs)

/-- Lowercases the first character, mirroring strings.ToLower(name[:1])+name[1:]. -/
def lowerFirst (s : String) : String :=
  match s.toList with
  | [] => ""
  | c :: cs => String.mk (c.toLower :: cs)

/-- Modelled from the spec: trimNSPrefix (utils.go) strips a namespace prefix,
mapping a qualified name ns:local to local. -/
def trimNS (s : String) : String :=
  String.mk ((splitOnPredList (fun c => c == ':') s.toList).getLastD s.toList)

/-- Modelled from the spec: fmt %g formatting of a numeric bound; exact for
integral values, which are the only ones the theorems below evaluate. -/
def goFormatG (q : Rat) : String :=
  if q.den == 1 then toString q.num else toString q.num ++ "/" ++ toString q.den

/-- Concatenates a list of strings in order (the sequential appends of the
Go string builders). -/
def strConcat : List String → String
  | [] => ""
  | x :: rest => x ++ strConcat rest

/-- Quotes one character as Go fmt %q does for ASCII input. -/
def goQuoteChar (c : Char) : String :=
  if c = '"' then "\\\""
  else if c = '\\' then "\\\\"
  else if c = '\t' then "\\t"
  else if c = '\n' then "\\n"
  else if c = '\r' then "\\r"
  else if 0x20 ≤ c.toNat && c.toNat ≤ 0x7e then String.mk [c]
  else "\\u" ++ toString c.toNat

/-- Mirrors Go fmt %q (strconv.Quote) for the ASCII strings the generator
emits: surrounding double quotes with backslash escapes inside. -/
def goQuote (s : String) : String :=
  "\"" ++ strConcat (s.toList.map goQuoteChar) ++ "\""

/-! ## Built-in type registry and type resolution -/

/-- Modelled from the spec: the built-in registry mapping XSD primitive names
to Go type names for the Go target (BuildInTypes, not in the provided
sources).  Only entries exercised by the development are listed. -/
def buildInTypesGo : List (String × String) :=
  [("string", "string"), ("token", "string"), ("normalizedString", "string"),
   ("anyURI", "string"), ("NMTOKEN", "string"),
   ("date", "time.Time"), ("dateTime", "time.Time"), ("time", "time.Time"),
   ("boolean", "bool"), ("int", "int"), ("integer", "int"),
   ("long", "int64"), ("short", "int16"), ("byte", "int8"),
   ("nonNegativeInteger", "int"), ("positiveInteger", "int"),
   ("unsignedInt", "uint32"), ("decimal", "float64"),
   ("double", "float64"), ("float", "float32")]

/-- Mirrors getBuildInTypeByLang(name, "Go"): a registry lookup. -/
def getBuildInTypeByLang (name : String) : Option String :=
  buildInTypesGo.lookup name

/-- Finds the first named SimpleType with the given name in a ProtoTree. -/
def findSimpleTypeInTree (tree : List TreeEnt) (name : String) : Option SimpleType :=
  match tree with
  | [] => none
  | .simpleType st :: rest =>
    if st.Name == name then some st else findSimpleTypeInTree rest name
  | _ :: rest => findSimpleTypeInTree rest name

/-- Fuelled base-chasing: maps a primitive through the registry, otherwise
chases the base of the named SimpleType found in the tree. -/
def getBaseAux : Nat → String → List TreeEnt → String
  | 0, name, _ => name
  | fuel + 1, name, tree =>
    match getBuildInTypeByLang name with
    | some bt => bt
    | none =>
      match findSimpleTypeInTree tree name with
      | some st => getBaseAux fuel (trimNS st.Base) tree
      | none => name

/-- Modelled from the spec: getBasefromSimpleType returns the primitive base
at the leaf of an alias chain, or the name unchanged if unresolvable. -/
def getBasefromSimpleType (name : String) (tree : List TreeEnt) : String :=
  getBaseAux (tree.length + 1) name tree

/-- Modelled from the spec: GetValueType strips the namespace prefix, maps
registry primitives, otherwise resolves through the tree, otherwise returns
the local name unchanged. -/
def GetValueType (name : String) (tree : List TreeEnt) : String :=
  getBaseAux (tree.length + 1) (trimNS name) tree

/-! ## genGo.go helpers -/

/-- The splitter rune set used by genGoFieldName and genGoFieldType. -/
def isSplitterChar (c : Char) : Bool :=
  c == ':' || c == '.' || c == '-' || c == '_'

/-- Mirrors the goBuildinType map of genGo.go. -/
def goBuildinType (s : String) : Bool :=
  ["xml.Name", "byte", "[]byte", "bool", "[]bool", "complex64",
   "complex128", "float32", "float64", "int", "int8", "int16", "int32",
   "int64", "interface", "[]interface\x7b\x7d", "string", "[]string",
   "time.Time", "uint", "uint8", "uint16", "uint32", "uint64"].contains s

/-- Mirrors genGoFieldName(name, false): title-case each splitter-separated
word and concatenate (the unique variant threads a counter, below). -/
def genGoFieldName (name : String) : String :=
  strConcat ((fieldsFunc name isSplitterChar).map MakeFirstUpperCase)

/-- Mirrors genGoFieldType: built-ins pass through, otherwise the
capitalized name behind a pointer, or an empty interface. -/
def genGoFieldType (name : String) : String :=
  if goBuildinType name then name
  else
    let fieldType := strConcat ((fieldsFunc name isSplitterChar).map MakeFirstUpperCase)
    if fieldType != "" then "*" ++ fieldType else "interface\x7b\x7d"

/-- Mirrors isNumericGoType of genGo.go. -/
def isNumericGoType (t : String) : Bool :=
  ["int", "int8", "int16", "int32", "int64", "uint", "uint8", "uint16",
   "uint32", "uint64", "float32", "float64"].contains t

/-- Mirrors hasRestrictions of genGo.go: whether any rule is present. -/
def hasRestrictions (r : Restriction) : Bool :=
  r.Enum.length > 0 || r.PatternStr != "" || r.HasLength || r.HasMinLength ||
    r.HasMaxLength || r.HasMin || r.HasMax

/-! ## buildValidateTag -/

/-- The comma-joined rule list built by buildValidateTag, before the dive
prefix: omitempty, then string rules (len or min/max, matches, oneof with the
whitespace guard), then numeric rules. -/
def buildValidateTagRules (base : String) (r : Restriction) (optional : Bool) : List String :=
  let rules : List String := if optional then ["omitempty"] else []
  let isString : Bool := base == "string"
  let rules :=
    if isString then
      let rules :=
        if r.HasLength then rules ++ ["len=" ++ toString r.Length]
        else
          let rules := if r.HasMinLength then rules ++ ["min=" ++ toString r.MinLength] else rules
          if r.HasMaxLength then rules ++ ["max=" ++ toString r.MaxLength] else rules
      let rules :=
        if r.PatternStr != "" then rules ++ ["matches=^" ++ r.PatternStr ++ "$"] else rules
      if r.Enum.length > 0 then
        if r.Enum.any containsGoWhitespace then rules
        else rules ++ ["oneof=" ++ String.intercalate " " r.Enum]
      else rules
    else rules
  if isNumericGoType base then
    let rules :=
      if r.HasMin then
        rules ++ [(if r.MinExclusive then "gt=" else "gte=") ++ goFormatG r.Min]
      else rules
    if r.HasMax then
      rules ++ [(if r.MaxExclusive then "lt=" else "lte=") ++ goFormatG r.Max]
    else rules
  else rules

/-- Mirrors buildValidateTag of genGo.go: empty when no rule is present,
otherwise the rules joined by commas, with dive prepended for slices. -/
def buildValidateTag (base : String) (r : Restriction) (optional isSlice : Bool) : String :=
  if !(hasRestrictions r) then ""
  else
    let rules := buildValidateTagRules base r optional
    if rules.length == 0 then ""
    else
      let rules := if isSlice then "dive" :: rules else rules
      String.intercalate "," rules

/-! ## Generated Validate method text (generateSimpleTypeValidator and
generateRestrictionChecks) -/

/-- The enum membership block emitted inside a simple-type Validate method:
an allowed set literal over all enum values followed by the lookup. -/
def enumCheckBlock (typeName : String) (enum : List String) : String :=
  "\t\x7b" ++ "\n\t\tallowed := map[string]struct\x7b\x7d\x7b\n" ++
    strConcat (enum.map (fun ev => "\t\t\t" ++ goQuote ev ++ ": \x7b\x7d,\n")) ++
    "\t\t\x7d\n" ++
    "\t\tif _, ok := allowed[string(v)]; !ok \x7b return fmt.Errorf(\"" ++ typeName ++
    " must be one of enum values\") \x7d\n" ++ "\t\x7d\n"

/-- The string-facet checks of a simple-type Validate method: length or
min/max length, then the pattern match on the raw pattern string, then the
enum membership block. -/
def stValidatorStringChecks (typeName : String) (r : Restriction) : String :=
  (if r.HasLength then
    "\tif len(string(v)) != " ++ toString r.Length ++ " \x7b return fmt.Errorf(\"" ++
      typeName ++ " length must be exactly " ++ toString r.Length ++ "\") \x7d\n"
   else
    (if r.HasMinLength then
      "\tif len(string(v)) < " ++ toString r.MinLength ++ " \x7b return fmt.Errorf(\"" ++
        typeName ++ " length must be >= " ++ toString r.MinLength ++ "\") \x7d\n"
     else "") ++
    (if r.HasMaxLength then
      "\tif len(string(v)) > " ++ toString r.MaxLength ++ " \x7b return fmt.Errorf(\"" ++
        typeName ++ " length must be <= " ++ toString r.MaxLength ++ "\") \x7d\n"
     else "")) ++
  (if r.PatternStr != "" then
    "\tif ok := regexp.MustCompile(" ++ goQuote r.PatternStr ++
      ").MatchString(string(v)); !ok \x7b return fmt.Errorf(\"%s does not match pattern: %q\", " ++
      goQuote typeName ++ ", " ++ goQuote r.PatternStr ++ ") \x7d\n"
   else "") ++
  (if r.Enum.length > 0 then enumCheckBlock typeName r.Enum else "")

/-- The numeric bound checks of a simple-type Validate method. -/
def stValidatorNumericChecks (typeName : String) (r : Restriction) : String :=
  "\tvv := float64(v)\n" ++
  (if r.HasMin then
    (if r.MinExclusive then
      "\tif vv <= " ++ goFormatG r.Min ++ " \x7b return fmt.Errorf(\"" ++ typeName ++
        " must be > " ++ goFormatG r.Min ++ "\") \x7d\n"
     else
      "\tif vv < " ++ goFormatG r.Min ++ " \x7b return fmt.Errorf(\"" ++ typeName ++
        " must be >= " ++ goFormatG r.Min ++ "\") \x7d\n")
   else "") ++
  (if r.HasMax then
    (if r.MaxExclusive then
      "\tif vv >= " ++ goFormatG r.Max ++ " \x7b return fmt.Errorf(\"" ++ typeName ++
        " must be < " ++ goFormatG r.Max ++ "\") \x7d\n"
     else
      "\tif vv > " ++ goFormatG r.Max ++ " \x7b return fmt.Errorf(\"" ++ typeName ++
        " must be <= " ++ goFormatG r.Max ++ "\") \x7d\n")
   else "")

/-- Mirrors generateSimpleTypeValidator: the full Validate method text for a
named simple type, or the empty string when the restriction has no rules. -/
def simpleTypeValidatorText (typeName base : String) (r : Restriction) : String :=
  if !(hasRestrictions r) then ""
  else
    "\nfunc (v " ++ typeName ++ ") Validate() error \x7b\n" ++
    (if base == "string" then stValidatorStringChecks typeName r else "") ++
    (if isNumericGoType base && (r.HasMin || r.HasMax) then
      stValidatorNumericChecks typeName r
     else "") ++
    "\treturn nil\n\x7d"

/-- Whether the simple-type validator body uses fmt (mirrors the needsFmt
flag threading of generateSimpleTypeValidator). -/
def stValidatorNeedsFmt (base : String) (r : Restriction) : Bool :=
  (base == "string" &&
    (r.HasLength || (!r.HasLength && (r.HasMinLength || r.HasMaxLength)) ||
      r.PatternStr != "" || r.Enum.length > 0)) ||
  (isNumericGoType base && (r.HasMin || r.HasMax))

/-- The enum membership block of generateRestrictionChecks, over an arbitrary
value expression. -/
def checksEnumBlock (varExpr subjectName : String) (enum : List String) : String :=
  "\t\x7b" ++ "\n\t\tallowed := map[string]struct\x7b\x7d\x7b\n" ++
    strConcat (enum.map (fun ev => "\t\t\t" ++ goQuote ev ++ ": \x7b\x7d,\n")) ++
    "\t\t\x7d\n" ++
    "\t\tif _, ok := allowed[string(" ++ varExpr ++ ")]; !ok \x7b return fmt.Errorf(\"" ++
    subjectName ++ " must be one of enum values\") \x7d\n" ++ "\t\x7d\n"

/-- Mirrors generateRestrictionChecks: the Go code snippet enforcing a
restriction against the expression varExpr. -/
def restrictionChecksText (varExpr base subjectName : String) (r : Restriction) : String :=
  (if base == "string" then
    (if r.HasLength then
      "\tif len(string(" ++ varExpr ++ ")) != " ++ toString r.Length ++
        " \x7b return fmt.Errorf(\"" ++ subjectName ++ " length must be exactly " ++
        toString r.Length ++ "\") \x7d\n"
     else
      (if r.HasMinLength then
        "\tif len(string(" ++ varExpr ++ ")) < " ++ toString r.MinLength ++
          " \x7b return fmt.Errorf(\"" ++ subjectName ++ " length must be >= " ++
          toString r.MinLength ++ "\") \x7d\n"
       else "") ++
      (if r.HasMaxLength then
        "\tif len(string(" ++ varExpr ++ ")) > " ++ toString r.MaxLength ++
          " \x7b return fmt.Errorf(\"" ++ subjectName ++ " length must be <= " ++
          toString r.MaxLength ++ "\") \x7d\n"
       else "")) ++
    (if r.PatternStr != "" then
      "\tif ok := regexp.MustCompile(" ++ goQuote r.PatternStr ++
        ").MatchString(string(" ++ varExpr ++ ")); !ok \x7b return fmt.Errorf(\"" ++
        subjectName ++ " does not match pattern: %q\", " ++ goQuote r.PatternStr ++
        ") \x7d\n"
     else "") ++
    (if r.Enum.length > 0 then checksEnumBlock varExpr subjectName r.Enum else "")
   else "") ++
  (if isNumericGoType base && (r.HasMin || r.HasMax) then
    "\tvv := float64(" ++ varExpr ++ ")\n" ++
    (if r.HasMin then
      (if r.MinExclusive then
        "\tif vv <= " ++ goFormatG r.Min ++ " \x7b return fmt.Errorf(\"" ++ subjectName ++
          " must be > " ++ goFormatG r.Min ++ "\") \x7d\n"
       else
        "\tif vv < " ++ goFormatG r.Min ++ " \x7b return fmt.Errorf(\"" ++ subjectName ++
          " must be >= " ++ goFormatG r.Min ++ "\") \x7d\n")
     else "") ++
    (if r.HasMax then
      (if r.MaxExclusive then
        "\tif vv >= " ++ goFormatG r.Max ++ " \x7b return fmt.Errorf(\"" ++ subjectName ++
          " must be < " ++ goFormatG r.Max ++ "\") \x7d\n"
       else
        "\tif vv > " ++ goFormatG r.Max ++ " \x7b return fmt.Errorf(\"" ++ subjectName ++
          " must be <= " ++ goFormatG r.Max ++ "\") \x7d\n")
     else "")
   else "")

/-! ## CodeGenerator state and the emitters of genGo.go -/

/-- Mirrors the CodeGenerator runtime state of genGo.go: configuration, import
flags, the accumulated output text (Field), the emitted-type map (StructAST,
used only for membership, modelled as an association list) and the
field-name uniqueness counter (a Go package global, reset per GenGo run). -/
structure CodeGenerator where
  File : String := ""
  Package : String := ""
  Field : String := ""
  ImportTime : Bool := false
  ImportEncodingXML : Bool := false
  ImportFmt : Bool := false
  ImportRegexp : Bool := false
  ProtoTree : List TreeEnt := []
  StructAST : List (String × String) := []
  fieldNameCount : List (String × Nat) := []
deriving DecidableEq

/-- Updates or inserts a key in an association list. -/
def assocInsert (l : List (String × Nat)) (k : String) (v : Nat) : List (String × Nat) :=
  match l with
  | [] => [(k, v)]
  | (k0, v0) :: rest => if k0 == k then (k, v) :: rest else (k0, v0) :: assocInsert rest k v

/-- Mirrors genGoFieldName(name, true): the capitalized name, suffixed with
an occurrence count after the first use. -/
def genGoFieldNameU (gen : CodeGenerator) (name : String) : CodeGenerator × String :=
  let fn := genGoFieldName name
  let c := ((gen.fieldNameCount.lookup fn).getD 0) + 1
  let gen := { gen with fieldNameCount := assocInsert gen.fieldNameCount fn c }
  (gen, if c != 1 then fn ++ toString c else fn)

/-- Modelled from the spec: genFieldComment (not in the provided sources)
produces the comment line preceding an emitted declaration; any deterministic
function of the name and documentation serves the claims below. -/
def genFieldComment (fieldName doc commentStyle : String) : String :=
  commentStyle ++ " " ++ fieldName ++ " ..." ++ (if doc != "" then " " ++ doc else "") ++ "\n"

/-- Modelled from the spec: the boilerplate header comment of the emitted file. -/
def copyright : String := "// Code generated by xgen. DO NOT EDIT."

/-- Mirrors findSimpleType of genGo.go: retrieves a named simpleType from the
generator's ProtoTree after stripping the namespace prefix. -/
def findSimpleType (gen : CodeGenerator) (name : String) : Option SimpleType :=
  findSimpleTypeInTree gen.ProtoTree (trimNS name)

/-- Mirrors findSimpleTypeByGoName: retrieves a simpleType whose emitted Go
name matches. -/
def findSimpleTypeByGoName (gen : CodeGenerator) (goName : String) : Option SimpleType :=
  match gen.ProtoTree.find? (fun ent =>
    match ent with
    | .simpleType st => genGoFieldName st.Name == goName
    | _ => false) with
  | some (.simpleType st) => some st
  | _ => none

/-- Mirrors (a part of) generateSimpleTypeValidator: appends the Validate
method for a named simple type and raises the import flags it needs. -/
def generateSimpleTypeValidator (gen : CodeGenerator) (typeName base : String)
    (r : Restriction) : CodeGenerator :=
  if !(hasRestrictions r) then gen
  else
    let gen := if base == "string" && r.PatternStr != "" then { gen with ImportRegexp := true } else gen
    let gen := if stValidatorNeedsFmt base r then { gen with ImportFmt := true } else gen
    { gen with Field := gen.Field ++ simpleTypeValidatorText typeName base r ++ "\n" }

/-- Mirrors ensureNamedType of genGo.go: makes sure a referenced named
simpleType has a declaration, with the commonTypes.go and trainOperation.go
fallbacks for unresolvable names. -/
def ensureNamedType (gen : CodeGenerator) (xsdOrGoName : String) : CodeGenerator :=
  let name := trimNS xsdOrGoName
  if name == "" then gen
  else if ((getBuildInTypeByLang name).getD "") != "" then gen
  else
    let st0 := findSimpleTypeInTree gen.ProtoTree name
    let st1 := match st0 with
      | some st => some st
      | none => findSimpleTypeByGoName gen name
    let st2 := match st1 with
      | some st => some st
      | none => if name.length > 0 then findSimpleTypeInTree gen.ProtoTree (trimNS (lowerFirst name)) else none
    match st2 with
    | none =>
      if strContains gen.File "commonTypes.go" then
        if (gen.StructAST.lookup name).isSome then gen
        else
          let base := getBasefromSimpleType name gen.ProtoTree
          let base :=
            if base == name || base == "" then
              if ((getBuildInTypeByLang name).getD "") != "" then (getBuildInTypeByLang name).getD ""
              else "string"
            else base
          let declType := genGoFieldType base
          let declType := if strStartsWith declType "*" then declType.drop 1 else declType
          let content := " " ++ declType ++ "\n"
          let gen := { gen with StructAST := gen.StructAST ++ [(name, content)] }
          let (gen, fieldName) := genGoFieldNameU gen name
          { gen with Field := gen.Field ++ genFieldComment fieldName "" "//" ++ "type " ++ fieldName ++ content }
      else if strContains gen.File "trainOperation.go" then
        let goName := genGoFieldName name
        if goName == "TSendingType" || goName == "TSendingTypeSpecial" then
          if (gen.StructAST.lookup goName).isSome then gen
          else
            let content := " int\n"
            let gen := { gen with StructAST := gen.StructAST ++ [(goName, content)] }
            { gen with Field := gen.Field ++ genFieldComment goName "" "//" ++ "type " ++ goName ++ content }
        else gen
      else gen
    | some st =>
      if (gen.StructAST.lookup st.Name).isSome then gen
      else
        let base := getBasefromSimpleType (trimNS st.Base) gen.ProtoTree
        let content := " " ++ genGoFieldType base ++ "\n"
        let gen := { gen with StructAST := gen.StructAST ++ [(st.Name, content)] }
        let (gen, fieldName) := genGoFieldNameU gen st.Name
        let gen := { gen with Field := gen.Field ++ genFieldComment fieldName st.Doc "//" ++ "type " ++ fieldName ++ content }
        generateSimpleTypeValidator gen fieldName base st.Restriction

/-- Modelled from the spec: toSortedPairs iterates the union member map in
sorted key order; here an insertion sort by key. -/
def insertPairSorted (p : String × String) : List (String × String) → List (String × String)
  | [] => [p]
  | q :: rest => if p.1 ≤ q.1 then p :: q :: rest else q :: insertPairSorted p rest

/-- Sorts member-type pairs by key. -/
def toSortedPairs (l : List (String × String)) : List (String × String) :=
  l.foldr insertPairSorted []

/-- Mirrors isGoBuiltInType of genGo.go. -/
def isGoBuiltInType (typeName : String) : Bool :=
  goBuildinType typeName

/-- Mirrors GoSimpleType: emits a list alias, a union struct, or a base alias
with its Validate method, skipping names already in StructAST (a List-flagged
type already present falls through to the union and base branches, as in the
source). -/
def GoSimpleType (gen : CodeGenerator) (v : SimpleType) : CodeGenerator :=
  if v.ListFlag && (gen.StructAST.lookup v.Name).isNone then
    let fieldType := genGoFieldType (getBasefromSimpleType (trimNS v.Base) gen.ProtoTree)
    let gen := if fieldType == "time.Time" then { gen with ImportTime := true } else gen
    let content := " []" ++ genGoFieldType fieldType ++ "\n"
    let gen := { gen with StructAST := gen.StructAST ++ [(v.Name, content)] }
    let (gen, fieldName) := genGoFieldNameU gen v.Name
    { gen with Field := gen.Field ++ genFieldComment fieldName v.Doc "//" ++ "type " ++ fieldName ++ content }
  else if v.Union && v.MemberTypes.length > 0 then
    if (gen.StructAST.lookup v.Name).isNone then
      let content := " struct \x7b\n"
      let (gen, fieldName) := genGoFieldNameU gen v.Name
      let (gen, content) :=
        if fieldName != v.Name then
          ({ gen with ImportEncodingXML := true },
           content ++ "\tXMLName\txml.Name\t`xml:\"" ++ v.Name ++ "\"`\n")
        else (gen, content)
      let (gen, content) := (toSortedPairs v.MemberTypes).foldl
        (fun (p : CodeGenerator × String) member =>
          let (gen, content) := p
          let gen := ensureNamedType gen member.1
          let memberType :=
            if member.2 == "" then getBasefromSimpleType member.1 gen.ProtoTree else member.2
          (gen, content ++ "\t" ++ genGoFieldName member.1 ++ "\t" ++ genGoFieldType memberType ++ "\n"))
        (gen, content)
      let content := content ++ "\x7d\n"
      let gen := { gen with StructAST := gen.StructAST ++ [(v.Name, content)] }
      { gen with Field := gen.Field ++ genFieldComment fieldName v.Doc "//" ++ "type " ++ fieldName ++ content }
    else gen
  else if (gen.StructAST.lookup v.Name).isNone then
    let base := getBasefromSimpleType (trimNS v.Base) gen.ProtoTree
    let content := " " ++ genGoFieldType base ++ "\n"
    let gen := { gen with StructAST := gen.StructAST ++ [(v.Name, content)] }
    let (gen, fieldName) := genGoFieldNameU gen v.Name
    let gen := { gen with Field := gen.Field ++ genFieldComment fieldName v.Doc "//" ++ "type " ++ fieldName ++ content }
    generateSimpleTypeValidator gen fieldName base v.Restriction
  else gen

/-! ## ComplexType field emission -/

/-- The base/fieldType resolution of a ComplexType attribute field before
optionality wrapping: prefer the named simpleType found through TypeRef,
otherwise fall back to the resolved type, the built-in registry, or the
base-chasing lookup. -/
def attrResolvedPair (tree : List TreeEnt) (a : Attribute) : String × String :=
  match findSimpleTypeInTree tree (trimNS a.TypeRef) with
  | some st => (getBasefromSimpleType (trimNS st.Base) tree, genGoFieldName st.Name)
  | none =>
    let resolved := trimSpace a.TypeName
    let resolved :=
      if resolved == "" && a.TypeRef != "" then
        if ((getBuildInTypeByLang (trimNS a.TypeRef)).getD "") != "" then
          (getBuildInTypeByLang (trimNS a.TypeRef)).getD ""
        else getBasefromSimpleType (trimNS a.TypeRef) tree
      else resolved
    let resolved := if resolved == "" then getBasefromSimpleType (trimNS a.TypeName) tree else resolved
    (resolved, genGoFieldType resolved)

/-- The optionality wrapping of an attribute field: a pointer is added when
the type is not already a pointer, otherwise the xml tag gains omitempty.
The Plural flag plays no role for attributes.  Returns the final field type
and the xml-tag suffix. -/
def attrFieldTypeOptional (tree : List TreeEnt) (a : Attribute) : String × String :=
  let fieldType := (attrResolvedPair tree a).2
  if a.Optional then
    if !(strStartsWith fieldType "*") then ("*" ++ fieldType, "")
    else (fieldType, ",omitempty")
  else (fieldType, "")

/-- The restriction/base selection shared by the attribute and element loops
of GoComplexType (and by GoAttributeGroup): the inline restriction when it
has any rule, otherwise the restriction and resolved base of the simpleType
named by TypeRef, otherwise of the simpleType named by the resolved type,
otherwise the (ruleless) inline restriction with the incoming base. -/
def fieldChosen (tree : List TreeEnt) (inlineR : Restriction) (typeRef typN base0 : String) :
    Restriction × String :=
  if hasRestrictions inlineR then (inlineR, base0)
  else
    match findSimpleTypeInTree tree (trimNS typeRef) with
    | some st => (st.Restriction, getBasefromSimpleType (trimNS st.Base) tree)
    | none =>
      match findSimpleTypeInTree tree (trimNS typN) with
      | some st2 => (st2.Restriction, getBasefromSimpleType (trimNS st2.Base) tree)
      | none => (inlineR, base0)

/-- The struct-field line emitted for a ComplexType attribute. -/
def attrFieldLine (tree : List TreeEnt) (a : Attribute) : String :=
  let base0 := (attrResolvedPair tree a).1
  let ft := attrFieldTypeOptional tree a
  let rb := fieldChosen tree a.Restriction a.TypeRef a.TypeName base0
  let vtag := buildValidateTag rb.2 rb.1 a.Optional false
  let tag := "xml:\"" ++ a.Name ++ ",attr" ++ ft.2 ++ "\"" ++
    (if vtag != "" then " validate:\"" ++ vtag ++ "\"" else "")
  "\t" ++ genGoFieldName a.Name ++ "Attr\t" ++ ft.1 ++ "\t`" ++ tag ++ "`\n"

/-- The attribute loop body of GoComplexType: ensures referenced named types
are declared, raises ImportTime, and produces the field line. -/
def goComplexTypeAttr (gen : CodeGenerator) (a : Attribute) : CodeGenerator × String :=
  let gen := ensureNamedType gen a.TypeRef
  let gen := ensureNamedType gen a.TypeName
  let fieldType := (attrFieldTypeOptional gen.ProtoTree a).1
  let gen := if fieldType == "time.Time" then { gen with ImportTime := true } else gen
  (gen, attrFieldLine gen.ProtoTree a)

/-- The base/fieldType resolution of a ComplexType element field before
plurality/optionality wrapping; same policy as for attributes. -/
def elemResolvedPair (tree : List TreeEnt) (e : Element) : String × String :=
  match findSimpleTypeInTree tree (trimNS e.TypeRef) with
  | some st => (getBasefromSimpleType (trimNS st.Base) tree, genGoFieldName st.Name)
  | none =>
    let resolved := trimSpace e.TypeName
    let resolved :=
      if resolved == "" && e.TypeRef != "" then
        if ((getBuildInTypeByLang (trimNS e.TypeRef)).getD "") != "" then
          (getBuildInTypeByLang (trimNS e.TypeRef)).getD ""
        else getBasefromSimpleType (trimNS e.TypeRef) tree
      else resolved
    let resolved := if resolved == "" then getBasefromSimpleType (trimNS e.TypeName) tree else resolved
    (resolved, genGoFieldType resolved)

/-- The plurality and optionality wrapping of an element field: plural wraps
in a slice; optional wraps in a pointer only for non-plural non-pointer types
and always adds omitempty to the xml tag.  Returns the final field type and
the xml-tag suffix. -/
def elemFieldTypeWrap (tree : List TreeEnt) (e : Element) : String × String :=
  let fieldType := (elemResolvedPair tree e).2
  let fieldType := if e.Plural then "[]" ++ fieldType else fieldType
  if e.Optional then
    ((if !e.Plural && !(strStartsWith fieldType "*") then "*" ++ fieldType else fieldType),
     ",omitempty")
  else (fieldType, "")

/-- The struct-field line emitted for a ComplexType element. -/
def elemFieldLine (tree : List TreeEnt) (e : Element) : String :=
  let base0 := (elemResolvedPair tree e).1
  let ft := elemFieldTypeWrap tree e
  let rb := fieldChosen tree e.Restriction e.TypeRef e.TypeName base0
  let vtag := buildValidateTag rb.2 rb.1 e.Optional e.Plural
  let tag := "xml:\"" ++ e.Name ++ ft.2 ++ "\"" ++
    (if vtag != "" then " validate:\"" ++ vtag ++ "\"" else "")
  "\t" ++ genGoFieldName e.Name ++ "\t" ++ ft.1 ++ "\t`" ++ tag ++ "`\n"

/-- The element loop body of GoComplexType. -/
def goComplexTypeElem (gen : CodeGenerator) (e : Element) : CodeGenerator × String :=
  let gen := ensureNamedType gen e.TypeRef
  let fieldType := (elemFieldTypeWrap gen.ProtoTree e).1
  let gen := if fieldType == "time.Time" then { gen with ImportTime := true } else gen
  (gen, elemFieldLine gen.ProtoTree e)

/-! ## ComplexType Validate method -/

/-- Whether any field of the ComplexType carries an inline restriction with a
rule (the emission trigger of generateComplexTypeValidator). -/
def complexTypeValidatorAny (v : ComplexType) : Bool :=
  v.Attributes.any (fun a => hasRestrictions a.Restriction) ||
    v.Elements.any (fun e => hasRestrictions e.Restriction)

/-- The Validate-method chunk for one attribute of a ComplexType: empty when
the inline restriction has no rule, otherwise the checks, dereference-guarded
when optional. -/
def ctValidatorAttrChunk (tree : List TreeEnt) (a : Attribute) : String :=
  if !(hasRestrictions a.Restriction) then ""
  else
    let fieldName := genGoFieldName a.Name ++ "Attr"
    let base := getBasefromSimpleType (trimNS a.TypeName) tree
    if a.Optional then
      "\tif m." ++ fieldName ++ " != nil \x7b\n" ++
        restrictionChecksText ("*m." ++ fieldName) base fieldName a.Restriction ++ "\t\x7d\n"
    else restrictionChecksText ("m." ++ fieldName) base fieldName a.Restriction

/-- The Validate-method chunk for one element of a ComplexType: empty when
the inline restriction has no rule, otherwise iterated over for plural
fields, guarded for optional fields, direct otherwise. -/
def ctValidatorElemChunk (tree : List TreeEnt) (e : Element) : String :=
  if !(hasRestrictions e.Restriction) then ""
  else
    let fieldName := genGoFieldName e.Name
    let base := getBasefromSimpleType (trimNS e.TypeName) tree
    if e.Plural then
      "\tfor _, it := range m." ++ fieldName ++ " \x7b\n" ++
        restrictionChecksText "it" base fieldName e.Restriction ++ "\t\x7d\n"
    else if e.Optional then
      "\tif m." ++ fieldName ++ " != nil \x7b\n" ++
        restrictionChecksText ("*m." ++ fieldName) base fieldName e.Restriction ++ "\t\x7d\n"
    else restrictionChecksText ("m." ++ fieldName) base fieldName e.Restriction

/-- Mirrors generateComplexTypeValidator: the Validate method text, emitted
only when some field has an inline restriction with a rule. -/
def complexTypeValidatorText (tree : List TreeEnt) (typeName : String) (v : ComplexType) :
    Option String :=
  if !(complexTypeValidatorAny v) then none
  else
    some ("\nfunc (m *" ++ typeName ++ ") Validate() error \x7b\n" ++
      "\tif m == nil \x7b return nil \x7d\n" ++
      strConcat (v.Attributes.map (ctValidatorAttrChunk tree)) ++
      strConcat (v.Elements.map (ctValidatorElemChunk tree)) ++
      "\treturn nil\n\x7d")

/-- Whether the ComplexType Validate method uses regexp (a pattern on a
string-based field with an inline restriction). -/
def ctValidatorNeedsRegexp (tree : List TreeEnt) (v : ComplexType) : Bool :=
  v.Attributes.any (fun a => hasRestrictions a.Restriction &&
    getBasefromSimpleType (trimNS a.TypeName) tree == "string" && a.Restriction.PatternStr != "") ||
  v.Elements.any (fun e => hasRestrictions e.Restriction &&
    getBasefromSimpleType (trimNS e.TypeName) tree == "string" && e.Restriction.PatternStr != "")

/-- Appends the ComplexType Validate method to the generator output and
raises the import flags (fmt unconditionally when emitted, regexp when a
pattern check appears). -/
def generateComplexTypeValidator (gen : CodeGenerator) (typeName : String) (v : ComplexType) :
    CodeGenerator :=
  match complexTypeValidatorText gen.ProtoTree typeName v with
  | none => gen
  | some t =>
    let gen := { gen with ImportFmt := true }
    let gen := if ctValidatorNeedsRegexp gen.ProtoTree v then { gen with ImportRegexp := true } else gen
    { gen with Field := gen.Field ++ t ++ "\n" }

/-- Mirrors GoComplexType: emits the struct declaration with attribute-group,
attribute, group and element fields, the optional base embedding, and then
the Validate method. -/
def GoComplexType (gen : CodeGenerator) (v : ComplexType) : CodeGenerator :=
  if (gen.StructAST.lookup v.Name).isSome then gen
  else
    let content := " struct \x7b\n"
    let (gen, fieldName) := genGoFieldNameU gen v.Name
    let (gen, content) :=
      if fieldName != v.Name then
        ({ gen with ImportEncodingXML := true },
         content ++ "\tXMLName\txml.Name\t`xml:\"" ++ v.Name ++ "\"`\n")
      else (gen, content)
    let (gen, content) := v.AttributeGroup.foldl
      (fun (p : CodeGenerator × String) ag =>
        let (gen, content) := p
        let fieldType := getBasefromSimpleType (trimNS ag.Ref) gen.ProtoTree
        let gen := if fieldType == "time.Time" then { gen with ImportTime := true } else gen
        (gen, content ++ "\t" ++ genGoFieldName ag.Name ++ "\t" ++ genGoFieldType fieldType ++ "\n"))
      (gen, content)
    let (gen, content) := v.Attributes.foldl
      (fun (p : CodeGenerator × String) a =>
        let (gen, content) := p
        let (gen, line) := goComplexTypeAttr gen a
        (gen, content ++ line))
      (gen, content)
    let (gen, content) := v.Groups.foldl
      (fun (p : CodeGenerator × String) g =>
        let (gen, content) := p
        let gen := ensureNamedType gen g.Ref
        let fieldType := genGoFieldType (getBasefromSimpleType (trimNS g.Ref) gen.ProtoTree)
        let fieldType := if g.Plural then "[]" ++ fieldType else fieldType
        (gen, content ++ "\t" ++ genGoFieldName g.Name ++ "\t" ++ fieldType ++ "\n"))
      (gen, content)
    let (gen, content) := v.Elements.foldl
      (fun (p : CodeGenerator × String) e =>
        let (gen, content) := p
        let (gen, line) := goComplexTypeElem gen e
        (gen, content ++ line))
      (gen, content)
    let (gen, content) :=
      if v.Base.length > 0 then
        if isGoBuiltInType v.Base then
          (gen, content ++ "\tValue\t" ++ genGoFieldType v.Base ++ "\t`xml:\",chardata\"`\n")
        else
          let gen := ensureNamedType gen v.Base
          (gen, content ++ "\t" ++ genGoFieldType v.Base ++ "\n")
      else (gen, content)
    let content := content ++ "\x7d\n"
    let gen := { gen with StructAST := gen.StructAST ++ [(v.Name, content)] }
    let gen := { gen with Field := gen.Field ++ genFieldComment fieldName v.Doc "//" ++ "type " ++ fieldName ++ content }
    generateComplexTypeValidator gen fieldName v

/-- Mirrors GoGroup: emits the group struct declaration. -/
def GoGroup (gen : CodeGenerator) (v : Group) : CodeGenerator :=
  if (gen.StructAST.lookup v.Name).isSome then gen
  else
    let content := " struct \x7b\n"
    let (gen, fieldName) := genGoFieldNameU gen v.Name
    let (gen, content) :=
      if fieldName != v.Name then
        ({ gen with ImportEncodingXML := true },
         content ++ "\tXMLName\txml.Name\t`xml:\"" ++ v.Name ++ "\"`\n")
      else (gen, content)
    let (gen, content) := v.Elements.foldl
      (fun (p : CodeGenerator × String) e =>
        let (gen, content) := p
        let gen := ensureNamedType gen e.TypeRef
        let gen := ensureNamedType gen e.TypeName
        let plural := if e.Plural then "[]" else ""
        (gen, content ++ "\t" ++ genGoFieldName e.Name ++ "\t" ++ plural ++
          genGoFieldType (getBasefromSimpleType (trimNS e.TypeName) gen.ProtoTree) ++ "\n"))
      (gen, content)
    let (gen, content) := v.Groups.foldl
      (fun (p : CodeGenerator × String) g =>
        let (gen, content) := p
        let plural := if g.Plural then "[]" else ""
        (gen, content ++ "\t" ++ genGoFieldName g.Name ++ "\t" ++ plural ++
          genGoFieldType (getBasefromSimpleType (trimNS g.Ref) gen.ProtoTree) ++ "\n"))
      (gen, content)
    let content := content ++ "\x7d\n"
    let gen := { gen with StructAST := gen.StructAST ++ [(v.Name, content)] }
    { gen with Field := gen.Field ++ genFieldComment fieldName v.Doc "//" ++ "type " ++ fieldName ++ content }

/-- Mirrors GoAttributeGroup: emits the attribute-group struct declaration
with validator tags on its attribute fields. -/
def GoAttributeGroup (gen : CodeGenerator) (v : AttributeGroup) : CodeGenerator :=
  if (gen.StructAST.lookup v.Name).isSome then gen
  else
    let content := " struct \x7b\n"
    let (gen, fieldName) := genGoFieldNameU gen v.Name
    let (gen, content) :=
      if fieldName != v.Name then
        ({ gen with ImportEncodingXML := true },
         content ++ "\tXMLName\txml.Name\t`xml:\"" ++ v.Name ++ "\"`\n")
      else (gen, content)
    let (gen, content) := v.Attributes.foldl
      (fun (p : CodeGenerator × String) a =>
        let (gen, content) := p
        let gen := ensureNamedType gen a.TypeRef
        let gen := ensureNamedType gen a.TypeName
        let base := getBasefromSimpleType (trimNS a.TypeName) gen.ProtoTree
        let optionalTag := if a.Optional then ",omitempty" else ""
        let rb := fieldChosen gen.ProtoTree a.Restriction a.TypeRef a.TypeName base
        let vtag := buildValidateTag rb.2 rb.1 a.Optional false
        let tag := "xml:\"" ++ a.Name ++ ",attr" ++ optionalTag ++ "\"" ++
          (if vtag != "" then " validate:\"" ++ vtag ++ "\"" else "")
        (gen, content ++ "\t" ++ genGoFieldName a.Name ++ "Attr\t" ++ genGoFieldType rb.2 ++
          "\t`" ++ tag ++ "`\n"))
      (gen, content)
    let content := content ++ "\x7d\n"
    let gen := { gen with StructAST := gen.StructAST ++ [(v.Name, content)] }
    { gen with Field := gen.Field ++ genFieldComment fieldName v.Doc "//" ++ "type " ++ fieldName ++ content }

/-- Mirrors GoElement: a top-level element alias (field name not uniquified,
as in the source). -/
def GoElement (gen : CodeGenerator) (v : Element) : CodeGenerator :=
  if (gen.StructAST.lookup v.Name).isSome then gen
  else
    let plural := if v.Plural then "[]" else ""
    let content := "\t" ++ plural ++
      genGoFieldType (getBasefromSimpleType (trimNS v.TypeName) gen.ProtoTree) ++ "\n"
    let gen := { gen with StructAST := gen.StructAST ++ [(v.Name, content)] }
    let fieldName := genGoFieldName v.Name
    { gen with Field := gen.Field ++ genFieldComment fieldName v.Doc "//" ++ "type " ++ fieldName ++ content }

/-- Mirrors GoAttribute: a top-level attribute alias. -/
def GoAttribute (gen : CodeGenerator) (v : Attribute) : CodeGenerator :=
  if (gen.StructAST.lookup v.Name).isSome then gen
  else
    let plural := if v.Plural then "[]" else ""
    let content := "\t" ++ plural ++
      genGoFieldType (getBasefromSimpleType (trimNS v.TypeName) gen.ProtoTree) ++ "\n"
    let gen := { gen with StructAST := gen.StructAST ++ [(v.Name, content)] }
    let (gen, fieldName) := genGoFieldNameU gen v.Name
    { gen with Field := gen.Field ++ genFieldComment fieldName v.Doc "//" ++ "type " ++ fieldName ++ content }

/-! ## Safety net and GenGo assembly -/

/-- The separator predicate of ensureReferencedTypesDeclared: any rune that
is not a letter, digit or underscore. -/
def isNonIdentChar (c : Char) : Bool :=
  !(c == '_' || ('0' ≤ c && c ≤ '9') || ('A' ≤ c && c ≤ 'Z') || ('a' ≤ c && c ≤ 'z'))

/-- Keeps the first occurrence of each string. -/
def dedupKeepFirst (seen : List String) : List String → List String
  | [] => []
  | x :: rest =>
    if seen.contains x then dedupKeepFirst seen rest
    else x :: dedupKeepFirst (x :: seen) rest

/-- The key set of the candidates map of ensureReferencedTypesDeclared:
identifier tokens of the emitted text that start with an uppercase T followed
by an uppercase letter, without duplicates. -/
def candidatesOf (field : String) : List String :=
  dedupKeepFirst []
    ((fieldsFunc field isNonIdentChar).filter (fun tok =>
      match tok.toList with
      | c0 :: c1 :: _ => c0 == 'T' && ('A' ≤ c1 && c1 ≤ 'Z')
      | _ => false))

/-- The declared-name set the safety net checks against: every StructAST key
together with its emitted Go name (the declared map of
ensureReferencedTypesDeclared, built once before the loop). -/
def safetyNetDeclared (gen : CodeGenerator) : List String :=
  gen.StructAST.foldl (fun acc kv => acc ++ [kv.1, genGoFieldName kv.1]) []

/-- The loop body of ensureReferencedTypesDeclared: skip names already
declared (directly or lower-cased) and built-ins, otherwise declare the
candidate as a string alias. -/
def safetyNetStep (declared : List String) (gen : CodeGenerator) (name : String) :
    CodeGenerator :=
  if declared.contains name || declared.contains (lowerFirst name) then gen
  else if goBuildinType name then gen
  else
    let content := " string\n"
    let gen := { gen with StructAST := gen.StructAST ++ [(name, content)] }
    let (gen, fieldName) := genGoFieldNameU gen name
    { gen with Field := gen.Field ++ genFieldComment fieldName "" "//" ++ "type " ++ fieldName ++ content }

/-- Whether the safety net actually declares an alias for a candidate name:
it is neither declared (directly or lower-cased) nor a built-in. -/
def safetyNetEmits (gen : CodeGenerator) (name : String) : Bool :=
  !((safetyNetDeclared gen).contains name
    || (safetyNetDeclared gen).contains (lowerFirst name)
    || goBuildinType name)

/-- Mirrors ensureReferencedTypesDeclared of genGo.go, with the Go map
iteration over the candidates made explicit as the order argument (Go map
iteration order is unspecified): every candidate not already declared and
not a built-in is declared as a string alias. -/
def ensureReferencedTypesDeclared (gen : CodeGenerator) (order : List String) : CodeGenerator :=
  let cands := candidatesOf gen.Field
  (order.filter (fun n => cands.contains n)).foldl (safetyNetStep (safetyNetDeclared gen)) gen

/-- The per-entry dispatch of the second GenGo pass (callFuncByName on the
variant's type name). -/
def genGoDispatch (gen : CodeGenerator) : TreeEnt → CodeGenerator
  | .simpleType st => GoSimpleType gen st
  | .complexType ct => GoComplexType gen ct
  | .group g => GoGroup gen g
  | .attributeGroup ag => GoAttributeGroup gen ag
  | .element e => GoElement gen e
  | .attribute a => GoAttribute gen a

/-- The three emission passes of GenGo: named simple types first, then every
entry, then a sweep for named simple types still missing.  The field-name
counter is reset at the start, as in the source. -/
def genGoPhases (gen0 : CodeGenerator) : CodeGenerator :=
  let gen := { gen0 with fieldNameCount := [] }
  let gen := gen.ProtoTree.foldl
    (fun gen ent =>
      match ent with
      | .simpleType st => if st.Name != "" then GoSimpleType gen st else gen
      | _ => gen)
    gen
  let gen := gen.ProtoTree.foldl genGoDispatch gen
  gen.ProtoTree.foldl
    (fun gen ent =>
      match ent with
      | .simpleType st =>
        if st.Name != "" && (gen.StructAST.lookup st.Name).isNone then GoSimpleType gen st else gen
      | _ => gen)
    gen

/-- The safety-net phase, run only for the shared common-types output file. -/
def genGoSafety (gen : CodeGenerator) (order : List String) : CodeGenerator :=
  if strContains gen.File "commonTypes.go" then ensureReferencedTypesDeclared gen order else gen

/-- The conditional import block of the emitted file. -/
def genGoImportBlock (gen : CodeGenerator) : String :=
  let packages :=
    (if gen.ImportTime then "\t\"time\"\n" else "") ++
    (if gen.ImportEncodingXML then "\t\"encoding/xml\"\n" else "") ++
    (if gen.ImportFmt then "\t\"fmt\"\n" else "") ++
    (if gen.ImportRegexp then "\t\"regexp\"\n" else "")
  if packages != "" then "import (\n" ++ packages ++ ")" else ""

/-- The emitted package name, defaulting to schema. -/
def genGoPackageName (gen : CodeGenerator) : String :=
  if gen.Package == "" then "schema" else gen.Package

/-- The text handed to the target formatter: header, package clause, imports
and the accumulated declarations. -/
def genGoFullSource (gen : CodeGenerator) : String :=
  copyright ++ "\n\npackage " ++ genGoPackageName gen ++ "\n" ++ genGoImportBlock gen ++ gen.Field

/-- The text written when the formatter rejects the generated source (the
source writes it without the header comment). -/
def genGoFallbackSource (gen : CodeGenerator) : String :=
  "package " ++ genGoPackageName gen ++ "\n" ++ genGoImportBlock gen ++ gen.Field

/-- The full GenGo emission on a finalized ProtoTree, as the pre-formatting
output text; order is the Go map iteration order of the safety-net phase. -/
def genGoText (gen0 : CodeGenerator) (order : List String) : String :=
  genGoFullSource (genGoSafety (genGoPhases gen0) order)

/-- Mirrors the tail of GenGo: the formatter (an external collaborator,
passed as a function) is applied to the generated text; on success its output
is written, on failure the unformatted text is written and the error is
returned.  The result is the written file content and the returned error. -/
def genGoWrite (gen : CodeGenerator) (fmtSource : String → Except String String) :
    String × Except String Unit :=
  match fmtSource (genGoFullSource gen) with
  | .ok src => (src, .ok ())
  | .error e => (genGoFallbackSource gen, .error e)

/-! ## Parser state and handlers -/

/-- Mirrors the Options parser state: the per-construct stacks, the InUnion
flag, the dispatcher context strings and the ProtoTree being built.  The Go
stacks hold pointers; here the stack head is updated in place. -/
structure Options where
  simpleTypeStack : List SimpleType := []
  elementStack : List Element := []
  attributeStack : List Attribute := []
  complexTypeStack : List ComplexType := []
  InUnion : Bool := false
  CurrentEle : String := ""
  InElement : String := ""
  ProtoTree : List TreeEnt := []
deriving DecidableEq

/-- Mirrors OnMinInclusive (xmlMinInclusive.go): for each value attribute,
when a SimpleType is on top of the stack and the value parses as a float,
set Min, HasMin and clear MinExclusive; otherwise change nothing.  The float
parser (strconv.ParseFloat, an external collaborator) is a parameter.  The
handler has no error return path. -/
def OnMinInclusive (parseFloat : String → Option Rat) (attrs : List (String × String))
    (opt : Options) : Except String Options :=
  .ok (attrs.foldl
    (fun o attr =>
      if attr.1 == "value" then
        match o.simpleTypeStack with
        | st :: rest =>
          match parseFloat attr.2 with
          | some v =>
            { o with simpleTypeStack :=
                { st with Restriction :=
                    { st.Restriction with Min := v, HasMin := true, MinExclusive := false } } :: rest }
          | none => o
        | [] => o
      else o)
    opt)

/-- Mirrors OnMaxInclusive: analogous with Max, HasMax and MaxExclusive. -/
def OnMaxInclusive (parseFloat : String → Option Rat) (attrs : List (String × String))
    (opt : Options) : Except String Options :=
  .ok (attrs.foldl
    (fun o attr =>
      if attr.1 == "value" then
        match o.simpleTypeStack with
        | st :: rest =>
          match parseFloat attr.2 with
          | some v =>
            { o with simpleTypeStack :=
                { st with Restriction :=
                    { st.Restriction with Max := v, HasMax := true, MaxExclusive := false } } :: rest }
          | none => o
        | [] => o
      else o)
    opt)

/-- Mirrors OnMaxLength: when the value parses as an int (strconv.Atoi, a
parameter), set MaxLength and HasMaxLength. -/
def OnMaxLength (parseInt : String → Option Int) (attrs : List (String × String))
    (opt : Options) : Except String Options :=
  .ok (attrs.foldl
    (fun o attr =>
      if attr.1 == "value" then
        match o.simpleTypeStack with
        | st :: rest =>
          match parseInt attr.2 with
          | some v =>
            { o with simpleTypeStack :=
                { st with Restriction :=
                    { st.Restriction with MaxLength := v, HasMaxLength := true } } :: rest }
          | none => o
        | [] => o
      else o)
    opt)

/-- Mirrors OnPattern (xmlPattern.go): records the raw pattern string on the
innermost open SimpleType. -/
def OnPattern (attrs : List (String × String)) (opt : Options) : Except String Options :=
  .ok (attrs.foldl
    (fun o attr =>
      if attr.1 == "value" then
        match o.simpleTypeStack with
        | st :: rest =>
          { o with simpleTypeStack :=
              { st with Restriction := { st.Restriction with PatternStr := attr.2 } } :: rest }
        | [] => o
      else o)
    opt)

/-- Mirrors OnSimpleType (xmlSimpleType.go): pushes an empty SimpleType; a
name attribute assigns the name and records the enclosing construct. -/
def OnSimpleType (nameAttr : Option String) (opt : Options) : Options :=
  let opt := { opt with simpleTypeStack := ({} : SimpleType) :: opt.simpleTypeStack }
  match nameAttr with
  | some n =>
    match opt.simpleTypeStack with
    | st :: rest =>
      { opt with CurrentEle := opt.InElement, simpleTypeStack := { st with Name := n } :: rest }
    | [] => opt
  | none => opt

/-- Mirrors EndSimpleType: an anonymous top SimpleType under an open
Attribute (or, failing that, Element) projects its base onto that field and
pops; otherwise, outside a union, the SimpleType is appended to ProtoTree
and popped; inside a union it stays for the union handler. -/
def EndSimpleType (opt : Options) : Options :=
  match opt.simpleTypeStack with
  | [] => opt
  | st :: rest =>
    if opt.attributeStack.length > 0 && st.Name == "" then
      match opt.attributeStack with
      | a :: arest =>
        { opt with
            attributeStack := ({ a with TypeName := st.Base } :: arest),
            simpleTypeStack := rest }
      | [] => opt
    else if opt.elementStack.length > 0 && st.Name == "" then
      match opt.elementStack with
      | e :: erest =>
        { opt with
            elementStack := ({ e with TypeName := st.Base } :: erest),
            simpleTypeStack := rest }
      | [] => opt
    else if !opt.InUnion then
      { opt with
          ProtoTree := opt.ProtoTree ++ [.simpleType st],
          simpleTypeStack := rest, CurrentEle := "" }
    else opt

/-- Mirrors OnRestriction (xmlRestriction.go): resolves the base attribute
through GetValueType and records it on the innermost open SimpleType. -/
def OnRestriction (attrs : List (String × String)) (opt : Options) : Except String Options :=
  .ok (attrs.foldl
    (fun o attr =>
      if attr.1 == "base" then
        let valueType := GetValueType attr.2 o.ProtoTree
        match o.simpleTypeStack with
        | st :: rest => { o with simpleTypeStack := { st with Base := valueType } :: rest }
        | [] => o
      else o)
    opt)

/-- Mirrors EndRestriction: with an open Attribute, pops the top SimpleType
(named or not) and projects its resolved base and restriction onto the
attribute; analogously for an open Element, additionally patching the last
element of the enclosing ComplexType; otherwise the SimpleType stays for
EndSimpleType. -/
def EndRestriction (opt : Options) : Options :=
  match opt.simpleTypeStack with
  | [] => opt
  | st :: rest =>
    if opt.attributeStack.length > 0 then
      match opt.attributeStack with
      | a :: arest =>
        { opt with
            simpleTypeStack := rest,
            attributeStack :=
              ({ a with
                  TypeName := GetValueType st.Base opt.ProtoTree,
                  Restriction := st.Restriction } :: arest),
            CurrentEle := "" }
      | [] => opt
    else if opt.elementStack.length > 0 then
      match opt.elementStack with
      | e :: erest =>
        let e2 := { e with
          TypeName := GetValueType st.Base opt.ProtoTree,
          Restriction := st.Restriction }
        let opt := { opt with
          simpleTypeStack := rest,
          elementStack := (e2 :: erest), CurrentEle := "" }
        match opt.complexTypeStack with
        | ct :: crest =>
          if ct.Elements.length > 0 then
            { opt with complexTypeStack :=
                ({ ct with Elements := ct.Elements.set (ct.Elements.length - 1) e2 } :: crest) }
          else opt
        | [] => opt
      | [] => opt
    else opt

/-- Modelled from the spec: the Element structural handler pushes on start;
on end it pops and appends to the enclosing ComplexType's element list when
one is open, otherwise to ProtoTree. -/
def OnElementSpec (e : Element) (opt : Options) : Options :=
  { opt with elementStack := e :: opt.elementStack }

/-- Modelled from the spec: the Element end handler. -/
def EndElementSpec (opt : Options) : Options :=
  match opt.elementStack with
  | [] => opt
  | e :: erest =>
    match opt.complexTypeStack with
    | ct :: crest =>
      { opt with
          elementStack := erest,
          complexTypeStack := ({ ct with Elements := ct.Elements ++ [e] } :: crest) }
    | [] => { opt with elementStack := erest, ProtoTree := opt.ProtoTree ++ [.element e] }

/-- Modelled from the spec: the Attribute structural handler pushes on start. -/
def OnAttributeSpec (a : Attribute) (opt : Options) : Options :=
  { opt with attributeStack := a :: opt.attributeStack }

/-- Modelled from the spec: the Attribute end handler pops and appends to the
enclosing ComplexType's attribute list when one is open, otherwise to
ProtoTree. -/
def EndAttributeSpec (opt : Options) : Options :=
  match opt.attributeStack with
  | [] => opt
  | a :: arest =>
    match opt.complexTypeStack with
    | ct :: crest =>
      { opt with
          attributeStack := arest,
          complexTypeStack := ({ ct with Attributes := ct.Attributes ++ [a] } :: crest) }
    | [] => { opt with attributeStack := arest, ProtoTree := opt.ProtoTree ++ [.attribute a] }

/-- Modelled from the spec: the ComplexType structural handlers push on start
and pop-and-append on end. -/
def OnComplexTypeSpec (name : String) (opt : Options) : Options :=
  { opt with complexTypeStack := (({ Name := name } : ComplexType) :: opt.complexTypeStack) }

/-- Modelled from the spec: the ComplexType end handler. -/
def EndComplexTypeSpec (opt : Options) : Options :=
  match opt.complexTypeStack with
  | [] => opt
  | ct :: crest =>
    { opt with complexTypeStack := crest, ProtoTree := opt.ProtoTree ++ [.complexType ct] }

/-- The event alphabet for parser traces: structural start and end events
with their relevant attributes. -/
inductive Event where
  | openSimpleType (nameAttr : Option String)
  | closeSimpleType
  | openRestriction (base : String)
  | closeRestriction
  | openElement (e : Element)
  | closeElement
  | openAttribute (a : Attribute)
  | closeAttribute
  | openComplexType (name : String)
  | closeComplexType

/-- One dispatcher step: the InElement context is set to the local name of a
start event, then the handler runs (handlers returning an error value never
take the error path with the total modelled resolver). -/
def step (opt : Options) : Event → Options
  | .openSimpleType nameAttr => OnSimpleType nameAttr { opt with InElement := "simpleType" }
  | .closeSimpleType => EndSimpleType opt
  | .openRestriction base =>
    match OnRestriction [("base", base)] { opt with InElement := "restriction" } with
    | .ok o => o
    | .error _ => opt
  | .closeRestriction => EndRestriction opt
  | .openElement e => OnElementSpec e { opt with InElement := "element" }
  | .closeElement => EndElementSpec opt
  | .openAttribute a => OnAttributeSpec a { opt with InElement := "attribute" }
  | .closeAttribute => EndAttributeSpec opt
  | .openComplexType name => OnComplexTypeSpec name { opt with InElement := "complexType" }
  | .closeComplexType => EndComplexTypeSpec opt

/-- Runs a parser trace from a state. -/
def runEvents (opt : Options) (events : List Event) : Options :=
  events.foldl step opt

/-- Counts the ProtoTree entries that are SimpleTypes with a given name. -/
def countSimpleTypesNamed (tree : List TreeEnt) (name : String) : Nat :=
  (tree.filter (fun ent =>
    match ent with
    | .simpleType st => st.Name == name
    | _ => false)).length

/-! ## Helper lemmas -/

/-- A fold whose step fixes every state satisfying an invariant leaves the
start state unchanged. -/
theorem foldlFixedOfInv {α β : Type} (f : β → α → β) (l : List α) (b : β) (P : β → Prop)
    (hb : P b) (h : ∀ b a, a ∈ l → P b → f b a = b) : l.foldl f b = b := by
  induction l generalizing b with
  | nil => rfl
  | cons x xs ih =>
    rw [List.foldl_cons, h b x (by simp) hb]
    exact ih b hb (fun b a ha hp => h b a (by simp [ha]) hp)

/-! ## Claim theorems -/

/-- C1: the claim states that for a restriction whose pattern contains a
backslash, the tag built by buildValidateTag contains the pattern with every
backslash doubled.  Evaluating buildValidateTag at the spec's own example
pattern shows the emitted matches rule carries the pattern verbatim, with
single backslashes and no doubled backslash anywhere in the tag, so the code
contradicts the claim (and the repository's guidelines, which require the
doubling). -/
theorem buildValidateTag_backslash_not_doubled :
    buildValidateTag "string" { PatternStr := "[0-9]{2}\\.[0-9]{2}\\.[0-9]{4}" } false false
        = "matches=^[0-9]{2}\\.[0-9]{2}\\.[0-9]{4}$"
      ∧ strContains
          (buildValidateTag "string" { PatternStr := "[0-9]{2}\\.[0-9]{2}\\.[0-9]{4}" } false false)
          "\\\\" = false := by
  constructor
  · rfl
  · decide

/-- C2: the claim states that every emitted pattern rule, in the tag and in
both generated Validate-method forms, is anchored with a leading caret and a
trailing dollar.  Evaluating the generators at the unanchored pattern abc
shows the tag rule is anchored but both method forms compile the raw pattern
abc via regexp.MustCompile with no anchored literal anywhere in the emitted
method text, contradicting the claim (and the repository's guidelines). -/
theorem validate_method_pattern_unanchored :
    buildValidateTag "string" { PatternStr := "abc" } false false = "matches=^abc$"
      ∧ strContains (simpleTypeValidatorText "TFoo" "string" { PatternStr := "abc" })
          "regexp.MustCompile(\"abc\")" = true
      ∧ strContains (simpleTypeValidatorText "TFoo" "string" { PatternStr := "abc" })
          "^abc$" = false
      ∧ strContains (restrictionChecksText "m.X" "string" "X" { PatternStr := "abc" })
          "regexp.MustCompile(\"abc\")" = true
      ∧ strContains (restrictionChecksText "m.X" "string" "X" { PatternStr := "abc" })
          "^abc$" = false := by
  refine ⟨rfl, ?_, ?_, ?_, ?_⟩ <;> decide

/-- C7: a numeric or length facet start event whose value does not parse
leaves the open SimpleType's restriction completely unchanged and returns no
error, and the same holds when no SimpleType is on the stack; stated for
OnMinInclusive, OnMaxInclusive and OnMaxLength with the numeric parsers
(strconv, an external collaborator) as parameters. -/
theorem facet_parse_failure_ignored
    (parseF : String → Option Rat) (parseI : String → Option Int)
    (attrs : List (String × String)) (opt : Options) :
    ((∀ p ∈ attrs, p.1 = "value" → parseF p.2 = none) →
        OnMinInclusive parseF attrs opt = .ok opt ∧ OnMaxInclusive parseF attrs opt = .ok opt)
    ∧ ((∀ p ∈ attrs, p.1 = "value" → parseI p.2 = none) →
        OnMaxLength parseI attrs opt = .ok opt)
    ∧ (opt.simpleTypeStack = [] →
        OnMinInclusive parseF attrs opt = .ok opt ∧ OnMaxInclusive parseF attrs opt = .ok opt
          ∧ OnMaxLength parseI attrs opt = .ok opt) := by
  refine ⟨fun h => ⟨?_, ?_⟩, fun h => ?_, fun hempty => ⟨?_, ?_, ?_⟩⟩
  · unfold OnMinInclusive
    congr 1
    refine foldlFixedOfInv _ attrs opt (fun _ => True) trivial (fun o a ha _ => ?_)
    by_cases hv : a.1 == "value"
    · have hn : parseF a.2 = none := h a ha (by exact beq_iff_eq.mp hv)
      cases hst : o.simpleTypeStack <;> simp [hv, hn, hst]
    · simp [hv]
  · unfold OnMaxInclusive
    congr 1
    refine foldlFixedOfInv _ attrs opt (fun _ => True) trivial (fun o a ha _ => ?_)
    by_cases hv : a.1 == "value"
    · have hn : parseF a.2 = none := h a ha (by exact beq_iff_eq.mp hv)
      cases hst : o.simpleTypeStack <;> simp [hv, hn, hst]
    · simp [hv]
  · unfold OnMaxLength
    congr 1
    refine foldlFixedOfInv _ attrs opt (fun _ => True) trivial (fun o a ha _ => ?_)
    by_cases hv : a.1 == "value"
    · have hn : parseI a.2 = none := h a ha (by exact beq_iff_eq.mp hv)
      cases hst : o.simpleTypeStack <;> simp [hv, hn, hst]
    · simp [hv]
  · unfold OnMinInclusive
    congr 1
    refine foldlFixedOfInv _ attrs opt (fun o => o.simpleTypeStack = []) hempty
      (fun o a _ hP => ?_)
    by_cases hv : a.1 == "value" <;> simp [hv, hP]
  · unfold OnMaxInclusive
    congr 1
    refine foldlFixedOfInv _ attrs opt (fun o => o.simpleTypeStack = []) hempty
      (fun o a _ hP => ?_)
    by_cases hv : a.1 == "value" <;> simp [hv, hP]
  · unfold OnMaxLength
    congr 1
    refine foldlFixedOfInv _ attrs opt (fun o => o.simpleTypeStack = []) hempty
      (fun o a _ hP => ?_)
    by_cases hv : a.1 == "value" <;> simp [hv, hP]

/-- A concrete parser state with one open SimpleType, for the C7 witness. -/
def c7Opt : Options := { simpleTypeStack := [{ Name := "s" }] }

/-- C7 witness: the theorem applied at an unparseable value over an open
SimpleType and at the empty stack. -/
theorem facet_parse_failure_ignored_witness :
    (OnMinInclusive (fun _ => none) [("value", "zz")] c7Opt = .ok c7Opt
        ∧ OnMaxInclusive (fun _ => none) [("value", "zz")] c7Opt = .ok c7Opt)
      ∧ OnMaxLength (fun _ => none) [("value", "zz")] c7Opt = .ok c7Opt
      ∧ (OnMinInclusive (fun _ => none) [("value", "zz")] ({} : Options) = .ok {}
          ∧ OnMaxInclusive (fun _ => none) [("value", "zz")] ({} : Options) = .ok {}
          ∧ OnMaxLength (fun _ => none) [("value", "zz")] ({} : Options) = .ok {}) := by
  refine ⟨(facet_parse_failure_ignored (fun _ => none) (fun _ => none)
      [("value", "zz")] c7Opt).1 ?_, (facet_parse_failure_ignored (fun _ => none)
      (fun _ => none) [("value", "zz")] c7Opt).2.1 ?_,
    (facet_parse_failure_ignored (fun _ => none) (fun _ => none)
      [("value", "zz")] ({} : Options)).2.2 rfl⟩
  · intro p _ _; rfl
  · intro p _ _; rfl

/-- C8: when the post-emission formatter (an external collaborator, passed as
a function) rejects the generated text, GenGo writes the unformatted
generated text to the output file and returns the formatter's error; the
written content is never empty. -/
theorem formatter_rejection_writes_unformatted
    (gen : CodeGenerator) (fmtSource : String → Except String String) (e : String)
    (h : fmtSource (genGoFullSource gen) = .error e) :
    genGoWrite gen fmtSource = (genGoFallbackSource gen, .error e)
      ∧ genGoFallbackSource gen ≠ "" := by
  constructor
  · unfold genGoWrite
    rw [h]
  · unfold genGoFallbackSource
    intro hc
    have hd := congrArg String.data hc
    simp only [String.data_append] at hd
    exact absurd (List.append_eq_nil.mp (List.append_eq_nil.mp (List.append_eq_nil.mp
      (List.append_eq_nil.mp hd).1).1).1).1 (by decide)

/-- C8 witness: the theorem applied to the empty generator configuration and
an always-rejecting formatter. -/
theorem formatter_rejection_writes_unformatted_witness :
    genGoWrite {} (fun _ => .error "bad") = (genGoFallbackSource {}, .error "bad")
      ∧ genGoFallbackSource ({} : CodeGenerator) ≠ "" :=
  formatter_rejection_writes_unformatted {} (fun _ => .error "bad") "bad" rfl

/-- A plural and optional attribute of a ComplexType, refuting the C5 claim. -/
def c5Attr : Attribute := { Name := "a", TypeName := "string", Optional := true, Plural := true }

/-- C5 counterexample: the claim states that a field that is both plural and
optional is emitted only as a sequence with no pointer wrapper.  For a plural
optional attribute the emitter ignores Plural entirely: the emitted type is a
pointer, not a sequence. -/
theorem plural_optional_attribute_gets_pointer :
    (attrFieldTypeOptional [] c5Attr).1 = "*string"
      ∧ strStartsWith ((attrFieldTypeOptional [] c5Attr).1) "[]" = false
      ∧ attrFieldLine [] c5Attr = "\tAAttr\t*string\t`xml:\"a,attr\"`\n" := by
  refine ⟨rfl, by decide, rfl⟩

/-- C5 (amended): element fields follow the claimed policy — plural wraps in
a sequence with no pointer ever added, optional non-plural wraps in a pointer
unless the type is already a pointer — while attribute fields ignore Plural:
they are never wrapped in a sequence, and an optional attribute is wrapped in
a pointer (unless already a pointer) even when plural. -/
theorem optionality_plurality_wrapping (tree : List TreeEnt) (e : Element) (a : Attribute) :
    (e.Plural = true → (elemFieldTypeWrap tree e).1 = "[]" ++ (elemResolvedPair tree e).2)
    ∧ (e.Plural = false → e.Optional = true →
        strStartsWith (elemResolvedPair tree e).2 "*" = false →
        (elemFieldTypeWrap tree e).1 = "*" ++ (elemResolvedPair tree e).2)
    ∧ (e.Plural = false → e.Optional = true →
        strStartsWith (elemResolvedPair tree e).2 "*" = true →
        (elemFieldTypeWrap tree e).1 = (elemResolvedPair tree e).2)
    ∧ (e.Plural = false → e.Optional = false →
        (elemFieldTypeWrap tree e).1 = (elemResolvedPair tree e).2)
    ∧ ((attrFieldTypeOptional tree a).1
        = (attrFieldTypeOptional tree { a with Plural := false }).1)
    ∧ (a.Optional = true → strStartsWith (attrResolvedPair tree a).2 "*" = false →
        (attrFieldTypeOptional tree a).1 = "*" ++ (attrResolvedPair tree a).2)
    ∧ (a.Optional = true → strStartsWith (attrResolvedPair tree a).2 "*" = true →
        (attrFieldTypeOptional tree a).1 = (attrResolvedPair tree a).2)
    ∧ (a.Optional = false → (attrFieldTypeOptional tree a).1 = (attrResolvedPair tree a).2)
    ∧ ((attrFieldTypeOptional tree a).1 = (attrResolvedPair tree a).2
        ∨ (attrFieldTypeOptional tree a).1 = "*" ++ (attrResolvedPair tree a).2) := by
  refine ⟨?_, ?_, ?_, ?_, rfl, ?_, ?_, ?_, ?_⟩
  · intro hp
    by_cases ho : e.Optional <;> simp [elemFieldTypeWrap, hp, ho]
  · intro hp ho hs
    simp [elemFieldTypeWrap, hp, ho, hs]
  · intro hp ho hs
    simp [elemFieldTypeWrap, hp, ho, hs]
  · intro hp ho
    simp [elemFieldTypeWrap, hp, ho]
  · intro ho hs
    simp [attrFieldTypeOptional, ho, hs]
  · intro ho hs
    simp [attrFieldTypeOptional, ho, hs]
  · intro ho
    simp [attrFieldTypeOptional, ho]
  · by_cases ho : a.Optional
    · by_cases hs : strStartsWith (attrResolvedPair tree a).2 "*"
      · left; simp [attrFieldTypeOptional, ho, hs]
      · right; simp [attrFieldTypeOptional, ho, hs]
    · left; simp [attrFieldTypeOptional, ho]

/-- A plural optional element for the C5 witness. -/
def c5ElemPlural : Element := { Name := "x", TypeName := "string", Optional := true, Plural := true }

/-- An optional non-plural element for the C5 witness. -/
def c5ElemOpt : Element := { Name := "x", TypeName := "string", Optional := true, Plural := false }

/-- A plain attribute for the C5 witness. -/
def c5AttrPlain : Attribute := { Name := "x", TypeName := "string" }

/-- C5 amended-claim witness: the wrapping rules applied at concrete plural,
optional and plain fields. -/
theorem optionality_plurality_wrapping_witness :
    ((elemFieldTypeWrap [] c5ElemPlural).1 = "[]" ++ "string")
      ∧ ((elemFieldTypeWrap [] c5ElemOpt).1 = "*" ++ "string")
      ∧ ((attrFieldTypeOptional [] c5Attr).1 = "*" ++ "string") := by
  refine ⟨(optionality_plurality_wrapping [] c5ElemPlural c5Attr).1 rfl, ?_, ?_⟩
  · exact (optionality_plurality_wrapping [] c5ElemOpt c5Attr).2.1 rfl rfl (by decide)
  · exact (optionality_plurality_wrapping [] c5ElemOpt c5Attr).2.2.2.2.2.1 rfl (by decide)

/-- The chosen restriction is the inline one when it has any rule. -/
theorem fieldChosen_inline (tree : List TreeEnt) (inlineR : Restriction) (tr tn b0 : String)
    (h : hasRestrictions inlineR = true) :
    fieldChosen tree inlineR tr tn b0 = (inlineR, b0) := by
  simp [fieldChosen, h]

/-- Without inline rules, the restriction of the SimpleType named by TypeRef
is chosen, together with its resolved base. -/
theorem fieldChosen_typeRef (tree : List TreeEnt) (inlineR : Restriction) (tr tn b0 : String)
    (st : SimpleType) (h : hasRestrictions inlineR = false)
    (hf : findSimpleTypeInTree tree (trimNS tr) = some st) :
    fieldChosen tree inlineR tr tn b0
      = (st.Restriction, getBasefromSimpleType (trimNS st.Base) tree) := by
  simp [fieldChosen, h, hf]

/-- Without inline rules and with no SimpleType under TypeRef, the resolved
type's SimpleType is consulted. -/
theorem fieldChosen_typeName (tree : List TreeEnt) (inlineR : Restriction) (tr tn b0 : String)
    (st2 : SimpleType) (h : hasRestrictions inlineR = false)
    (hf : findSimpleTypeInTree tree (trimNS tr) = none)
    (hg : findSimpleTypeInTree tree (trimNS tn) = some st2) :
    fieldChosen tree inlineR tr tn b0
      = (st2.Restriction, getBasefromSimpleType (trimNS st2.Base) tree) := by
  simp [fieldChosen, h, hf, hg]

/-- With no inline rules and no named SimpleType found, the ruleless inline
restriction stays. -/
theorem fieldChosen_none (tree : List TreeEnt) (inlineR : Restriction) (tr tn b0 : String)
    (h : hasRestrictions inlineR = false)
    (hf : findSimpleTypeInTree tree (trimNS tr) = none)
    (hg : findSimpleTypeInTree tree (trimNS tn) = none) :
    fieldChosen tree inlineR tr tn b0 = (inlineR, b0)
      ∧ hasRestrictions (fieldChosen tree inlineR tr tn b0).1 = false := by
  simp [fieldChosen, h, hf, hg]

/-- C4: the restriction applied to an emitted field tag is chosen with the
claimed priority — the inline restriction when it has any rule, otherwise the
restriction (and resolved base) of the SimpleType named by TypeRef, otherwise
of the SimpleType named by the resolved type, otherwise none — and when
TypeRef names a SimpleType while the field has no inline rule, the emitted
attribute and element field lines carry the validate tag built from that
SimpleType's restriction whenever it yields any rule. -/
theorem restriction_projection (tree : List TreeEnt) (inlineR : Restriction)
    (typeRef typN b0 : String) (st : SimpleType) (e : Element) (a : Attribute) :
    (hasRestrictions inlineR = true →
        fieldChosen tree inlineR typeRef typN b0 = (inlineR, b0))
    ∧ (hasRestrictions inlineR = false →
        findSimpleTypeInTree tree (trimNS typeRef) = some st →
        fieldChosen tree inlineR typeRef typN b0
          = (st.Restriction, getBasefromSimpleType (trimNS st.Base) tree))
    ∧ (hasRestrictions inlineR = false →
        findSimpleTypeInTree tree (trimNS typeRef) = none →
        findSimpleTypeInTree tree (trimNS typN) = some st →
        fieldChosen tree inlineR typeRef typN b0
          = (st.Restriction, getBasefromSimpleType (trimNS st.Base) tree))
    ∧ (hasRestrictions inlineR = false →
        findSimpleTypeInTree tree (trimNS typeRef) = none →
        findSimpleTypeInTree tree (trimNS typN) = none →
        hasRestrictions (fieldChosen tree inlineR typeRef typN b0).1 = false)
    ∧ (hasRestrictions e.Restriction = false →
        findSimpleTypeInTree tree (trimNS e.TypeRef) = some st →
        buildValidateTag (getBasefromSimpleType (trimNS st.Base) tree) st.Restriction
            e.Optional e.Plural ≠ "" →
        ∃ pre post, elemFieldLine tree e
          = pre ++ (" validate:\"" ++ buildValidateTag
              (getBasefromSimpleType (trimNS st.Base) tree) st.Restriction
              e.Optional e.Plural ++ "\"") ++ post)
    ∧ (hasRestrictions a.Restriction = false →
        findSimpleTypeInTree tree (trimNS a.TypeRef) = some st →
        buildValidateTag (getBasefromSimpleType (trimNS st.Base) tree) st.Restriction
            a.Optional false ≠ "" →
        ∃ pre post, attrFieldLine tree a
          = pre ++ (" validate:\"" ++ buildValidateTag
              (getBasefromSimpleType (trimNS st.Base) tree) st.Restriction
              a.Optional false ++ "\"") ++ post) := by
  refine ⟨fieldChosen_inline tree inlineR typeRef typN b0,
    fieldChosen_typeRef tree inlineR typeRef typN b0 st,
    fieldChosen_typeName tree inlineR typeRef typN b0 st,
    fun h hf hg => (fieldChosen_none tree inlineR typeRef typN b0 h hf hg).2, ?_, ?_⟩
  · intro hi hf hv
    have hrb := fieldChosen_typeRef tree e.Restriction e.TypeRef e.TypeName
      (elemResolvedPair tree e).1 st hi hf
    refine ⟨"\t" ++ genGoFieldName e.Name ++ "\t" ++ (elemFieldTypeWrap tree e).1 ++
      "\t`" ++ ("xml:\"" ++ e.Name ++ (elemFieldTypeWrap tree e).2 ++ "\""), "`\n", ?_⟩
    simp only [elemFieldLine, hrb, bne_iff_ne, ne_eq, hv, not_false_eq_true, if_true,
      String.append_assoc]
  · intro hi hf hv
    have hrb := fieldChosen_typeRef tree a.Restriction a.TypeRef a.TypeName
      (attrResolvedPair tree a).1 st hi hf
    refine ⟨"\t" ++ genGoFieldName a.Name ++ "Attr\t" ++ (attrFieldTypeOptional tree a).1 ++
      "\t`" ++ ("xml:\"" ++ a.Name ++ ",attr" ++ (attrFieldTypeOptional tree a).2 ++ "\""),
      "`\n", ?_⟩
    simp only [attrFieldLine, hrb, bne_iff_ne, ne_eq, hv, not_false_eq_true, if_true,
      String.append_assoc]

/-- A named SimpleType with a minLength facet for the C4 witness. -/
def c4St : SimpleType := { Name := "tCode", Base := "string", Restriction := { HasMinLength := true, MinLength := 1 } }

/-- A one-entry ProtoTree for the C4 witness. -/
def c4Tree : List TreeEnt := [.simpleType c4St]

/-- An element referencing the restricted SimpleType with no inline rules. -/
def c4Elem : Element := { Name := "f", TypeRef := "tCode" }

/-- An optional attribute referencing the restricted SimpleType. -/
def c4Attr : Attribute := { Name := "g", TypeRef := "tCode", Optional := true }

/-- C4 witness: the projection theorem applied at a tree holding a restricted
named SimpleType referenced by TypeRef from a ruleless element and attribute. -/
theorem restriction_projection_witness :
    fieldChosen c4Tree ({} : Restriction) "tCode" "" "string"
        = (c4St.Restriction, getBasefromSimpleType (trimNS c4St.Base) c4Tree)
      ∧ (∃ pre post, elemFieldLine c4Tree c4Elem
          = pre ++ (" validate:\"" ++ buildValidateTag
              (getBasefromSimpleType (trimNS c4St.Base) c4Tree) c4St.Restriction
              c4Elem.Optional c4Elem.Plural ++ "\"") ++ post)
      ∧ (∃ pre post, attrFieldLine c4Tree c4Attr
          = pre ++ (" validate:\"" ++ buildValidateTag
              (getBasefromSimpleType (trimNS c4St.Base) c4Tree) c4St.Restriction
              c4Attr.Optional false ++ "\"") ++ post) := by
  refine ⟨(restriction_projection c4Tree {} "tCode" "" "string" c4St c4Elem c4Attr).2.1
      (by decide) (by decide),
    (restriction_projection c4Tree {} "tCode" "" "string" c4St c4Elem c4Attr).2.2.2.2.1
      (by decide) (by decide) (by decide),
    (restriction_projection c4Tree {} "tCode" "" "string" c4St c4Elem c4Attr).2.2.2.2.2
      (by decide) (by decide) (by decide)⟩

/-- Dropping the elements mapped to the empty string from a concatenation
leaves it unchanged. -/
theorem strConcat_map_filter {α : Type} (f : α → String) (P : α → Bool) :
    ∀ l : List α, (∀ x ∈ l, P x = false → f x = "") →
      strConcat (l.map f) = strConcat ((l.filter P).map f) := by
  intro l
  induction l with
  | nil => intro _; rfl
  | cons x xs ih =>
    intro h
    have ih2 := ih (fun y hy hPy => h y (by simp [hy]) hPy)
    by_cases hx : P x
    · simp [List.filter_cons, hx, strConcat, ih2]
    · have hfx : f x = "" := h x (by simp) (by simpa using hx)
      simp [List.filter_cons, hx, strConcat, hfx, ih2]

/-- C10: a ComplexType's Validate method is emitted exactly when some
attribute or element carries an inline restriction with a rule; a field whose
restriction arrives only through the named SimpleType referenced by TypeRef
neither triggers emission nor contributes any check (its chunk is empty and
the body ranges only over inline-restricted fields), while it does feed the
declarative tag via the projection selection. -/
theorem complex_validator_inline_only (tree : List TreeEnt) (typeName : String)
    (v : ComplexType) (gen : CodeGenerator) (st : SimpleType) (e : Element) (a : Attribute) :
    ((complexTypeValidatorText tree typeName v).isSome = true ↔
        (∃ a2 ∈ v.Attributes, hasRestrictions a2.Restriction = true)
          ∨ (∃ e2 ∈ v.Elements, hasRestrictions e2.Restriction = true))
    ∧ (complexTypeValidatorAny v = false →
        generateComplexTypeValidator gen typeName v = gen)
    ∧ (hasRestrictions e.Restriction = false → ctValidatorElemChunk tree e = "")
    ∧ (hasRestrictions a.Restriction = false → ctValidatorAttrChunk tree a = "")
    ∧ (complexTypeValidatorAny v = true →
        complexTypeValidatorText tree typeName v
          = some ("\nfunc (m *" ++ typeName ++ ") Validate() error \x7b\n" ++
              "\tif m == nil \x7b return nil \x7d\n" ++
              strConcat ((v.Attributes.filter
                (fun a2 => hasRestrictions a2.Restriction)).map (ctValidatorAttrChunk tree)) ++
              strConcat ((v.Elements.filter
                (fun e2 => hasRestrictions e2.Restriction)).map (ctValidatorElemChunk tree)) ++
              "\treturn nil\n\x7d"))
    ∧ (hasRestrictions e.Restriction = false →
        findSimpleTypeInTree tree (trimNS e.TypeRef) = some st →
        (fieldChosen tree e.Restriction e.TypeRef e.TypeName
            (elemResolvedPair tree e).1).1 = st.Restriction) := by
  refine ⟨?_, ?_, ?_, ?_, ?_, ?_⟩
  · by_cases hA : complexTypeValidatorAny v = true
    · simp only [complexTypeValidatorText, hA, Bool.not_true, Bool.false_eq_true,
        if_false, Option.isSome_some]
      simp only [complexTypeValidatorAny, Bool.or_eq_true, List.any_eq_true] at hA
      simp [hA]
    · simp only [complexTypeValidatorText, Bool.not_eq_true] at hA ⊢
      simp only [hA, Bool.not_false, if_true, Option.isSome_none]
      simp only [complexTypeValidatorAny, Bool.or_eq_true, List.any_eq_true,
        Bool.or_eq_false_iff, List.any_eq_false] at hA
      constructor
      · intro hc; exact absurd hc (by simp)
      · rintro (⟨x, hx, hr⟩ | ⟨x, hx, hr⟩)
        · exact absurd hr (by simp [hA.1 x hx])
        · exact absurd hr (by simp [hA.2 x hx])
  · intro hA
    unfold generateComplexTypeValidator
    simp [complexTypeValidatorText, hA]
  · intro h; simp [ctValidatorElemChunk, h]
  · intro h; simp [ctValidatorAttrChunk, h]
  · intro hA
    simp only [complexTypeValidatorText, hA, Bool.not_true, Bool.false_eq_true, if_false,
      Option.some.injEq]
    rw [strConcat_map_filter (ctValidatorAttrChunk tree)
        (fun a2 => hasRestrictions a2.Restriction) v.Attributes
        (fun x _ hP => by simp [ctValidatorAttrChunk, hP]),
      strConcat_map_filter (ctValidatorElemChunk tree)
        (fun e2 => hasRestrictions e2.Restriction) v.Elements
        (fun x _ hP => by simp [ctValidatorElemChunk, hP])]
  · intro hi hf
    rw [fieldChosen_typeRef tree e.Restriction e.TypeRef e.TypeName
      (elemResolvedPair tree e).1 st hi hf]

/-- A ComplexType whose single element is restricted only through TypeRef. -/
def c10V : ComplexType := { Name := "ct", Elements := [c4Elem] }

/-- An element with an inline length restriction. -/
def c10Elem : Element := { Name := "h", TypeName := "string", Restriction := { HasLength := true, Length := 2 } }

/-- A ComplexType with one inline-restricted element. -/
def c10VB : ComplexType := { Name := "ct2", Elements := [c10Elem] }

/-- A generator over the witness tree. -/
def c10Gen : CodeGenerator := { ProtoTree := c4Tree }

/-- C10 witness: the theorem applied at a ComplexType whose only restriction
arrives through TypeRef (no Validate method, empty chunk, tag selection picks
the named SimpleType's restriction) and at one with an inline restriction
(method emitted over the filtered fields). -/
theorem complex_validator_inline_only_witness :
    generateComplexTypeValidator c10Gen "Ct" c10V = c10Gen
      ∧ ctValidatorElemChunk c4Tree c4Elem = ""
      ∧ (fieldChosen c4Tree c4Elem.Restriction c4Elem.TypeRef c4Elem.TypeName
          (elemResolvedPair c4Tree c4Elem).1).1 = c4St.Restriction
      ∧ complexTypeValidatorText c4Tree "Ct2" c10VB
        = some ("\nfunc (m *Ct2) Validate() error \x7b\n" ++
            "\tif m == nil \x7b return nil \x7d\n" ++
            strConcat ((c10VB.Attributes.filter
              (fun a2 => hasRestrictions a2.Restriction)).map (ctValidatorAttrChunk c4Tree)) ++
            strConcat ((c10VB.Elements.filter
              (fun e2 => hasRestrictions e2.Restriction)).map (ctValidatorElemChunk c4Tree)) ++
            "\treturn nil\n\x7d") := by
  refine ⟨(complex_validator_inline_only c4Tree "Ct" c10V c10Gen c4St c4Elem
      ({} : Attribute)).2.1 (by decide),
    (complex_validator_inline_only c4Tree "Ct" c10V c10Gen c4St c4Elem
      ({} : Attribute)).2.2.1 (by decide),
    (complex_validator_inline_only c4Tree "Ct" c10V c10Gen c4St c4Elem
      ({} : Attribute)).2.2.2.2.2 (by decide) (by decide),
    (complex_validator_inline_only c4Tree "Ct2" c10VB c10Gen c4St c4Elem
      ({} : Attribute)).2.2.2.2.1 (by decide)⟩

/-- A prefix check fails as soon as the first characters differ. -/
theorem isPrefixOf_cons_false (p : Char) (ps : List Char) (a : Char) (rest : List Char)
    (h : (p == a) = false) : List.isPrefixOf (p :: ps) (a :: rest) = false := by
  simp [List.isPrefixOf, h]

/-- No omitempty rule is a oneof rule. -/
theorem sw_oneof_omitempty : strStartsWith "omitempty" "oneof=" = false := by decide

/-- No len rule is a oneof rule. -/
theorem sw_oneof_len (t : String) : strStartsWith ("len=" ++ t) "oneof=" = false := by
  unfold strStartsWith
  exact isPrefixOf_cons_false 'o' _ 'l' _ (by decide)

/-- No min rule is a oneof rule. -/
theorem sw_oneof_min (t : String) : strStartsWith ("min=" ++ t) "oneof=" = false := by
  unfold strStartsWith
  exact isPrefixOf_cons_false 'o' _ 'm' _ (by decide)

/-- No max rule is a oneof rule. -/
theorem sw_oneof_max (t : String) : strStartsWith ("max=" ++ t) "oneof=" = false := by
  unfold strStartsWith
  exact isPrefixOf_cons_false 'o' _ 'm' _ (by decide)

/-- No matches rule is a oneof rule. -/
theorem sw_oneof_matches (p q : String) :
    strStartsWith (("matches=^" ++ p) ++ q) "oneof=" = false := by
  unfold strStartsWith
  exact isPrefixOf_cons_false 'o' _ 'm' _ (by decide)

/-- No gt rule is a oneof rule. -/
theorem sw_oneof_gt (t : String) : strStartsWith ("gt=" ++ t) "oneof=" = false := by
  unfold strStartsWith
  exact isPrefixOf_cons_false 'o' _ 'g' _ (by decide)

/-- No gte rule is a oneof rule. -/
theorem sw_oneof_gte (t : String) : strStartsWith ("gte=" ++ t) "oneof=" = false := by
  unfold strStartsWith
  exact isPrefixOf_cons_false 'o' _ 'g' _ (by decide)

/-- No lt rule is a oneof rule. -/
theorem sw_oneof_lt (t : String) : strStartsWith ("lt=" ++ t) "oneof=" = false := by
  unfold strStartsWith
  exact isPrefixOf_cons_false 'o' _ 'l' _ (by decide)

/-- No lte rule is a oneof rule. -/
theorem sw_oneof_lte (t : String) : strStartsWith ("lte=" ++ t) "oneof=" = false := by
  unfold strStartsWith
  exact isPrefixOf_cons_false 'o' _ 'l' _ (by decide)

/-- No numeric lower-bound rule is a oneof rule. -/
theorem sw_oneof_minrule (b : Bool) (t : String) :
    strStartsWith ((if b then "gt=" else "gte=") ++ t) "oneof=" = false := by
  cases b <;> simp [sw_oneof_gt, sw_oneof_gte]

/-- No numeric upper-bound rule is a oneof rule. -/
theorem sw_oneof_maxrule (b : Bool) (t : String) :
    strStartsWith ((if b then "lt=" else "lte=") ++ t) "oneof=" = false := by
  cases b <;> simp [sw_oneof_lt, sw_oneof_lte]

/-- With a whitespace-carrying enum value, no rule of the built tag starts
with oneof. -/
theorem buildValidateTagRules_no_oneof (base : String) (r : Restriction) (opt : Bool)
    (hws : r.Enum.any containsGoWhitespace = true) :
    ∀ rule ∈ buildValidateTagRules base r opt, strStartsWith rule "oneof=" = false := by
  have hany : (buildValidateTagRules base r opt).any
      (fun rule => strStartsWith rule "oneof=") = false := by
    simp only [buildValidateTagRules, hws]
    simp [apply_ite (fun l => List.any l (fun rule => strStartsWith rule "oneof=")),
      List.any_append, List.any_cons, List.any_nil, sw_oneof_omitempty, sw_oneof_len,
      sw_oneof_min, sw_oneof_max, sw_oneof_matches, sw_oneof_gt, sw_oneof_gte,
      sw_oneof_lt, sw_oneof_lte, sw_oneof_minrule, sw_oneof_maxrule, ite_self]
  intro rule hrule
  exact Bool.eq_false_iff.mpr (List.any_eq_false.mp hany rule hrule)

/-- C6: with any whitespace-carrying enum value no rule of the declarative
tag is a oneof rule, while the generated Validate method still contains the
set-membership block over all enum values; with no whitespace anywhere the
rules contain oneof followed by the values joined by single spaces. -/
theorem enum_whitespace_guard (typeName : String) (r : Restriction) (opt : Bool) :
    (r.Enum.any containsGoWhitespace = true →
        ∀ base : String, ∀ rule ∈ buildValidateTagRules base r opt,
          strStartsWith rule "oneof=" = false)
    ∧ (r.Enum ≠ [] →
        ∃ pre post, simpleTypeValidatorText typeName "string" r
          = pre ++ enumCheckBlock typeName r.Enum ++ post)
    ∧ (r.Enum ≠ [] → r.Enum.any containsGoWhitespace = false →
        ("oneof=" ++ String.intercalate " " r.Enum) ∈ buildValidateTagRules "string" r opt) := by
  refine ⟨fun hws base => buildValidateTagRules_no_oneof base r opt hws, ?_, ?_⟩
  · intro h2
    have hlen : 0 < r.Enum.length := List.length_pos.mpr h2
    have hhr : hasRestrictions r = true := by
      simp [hasRestrictions, hlen]
    obtain ⟨A, hA⟩ : ∃ A, stValidatorStringChecks typeName r
        = A ++ enumCheckBlock typeName r.Enum :=
      ⟨_, by unfold stValidatorStringChecks; rw [if_pos hlen]⟩
    refine ⟨"\nfunc (v " ++ typeName ++ ") Validate() error \x7b\n" ++ A,
      "\treturn nil\n\x7d", ?_⟩
    simp only [simpleTypeValidatorText, hhr, Bool.not_true, Bool.false_eq_true, if_false]
    rw [hA]
    simp +decide [String.append_assoc]
  · intro h2 hws
    have hlen : 0 < r.Enum.length := List.length_pos.mpr h2
    unfold buildValidateTagRules
    simp +decide only [hws]
    simp [hlen]

/-- An enum with an internal space plus a pattern, for the C6 witness. -/
def c6RWs : Restriction := { Enum := ["a b", "c"], PatternStr := "x" }

/-- A whitespace-free enum, for the C6 witness. -/
def c6RClean : Restriction := { Enum := ["ab", "c"] }

/-- C6 witness: the guard theorem applied at a whitespace-carrying enum (the
only rule is the matches rule, no oneof; the Validate text still contains the
membership block) and at a clean enum (oneof present). -/
theorem enum_whitespace_guard_witness :
    strStartsWith "matches=^x$" "oneof=" = false
      ∧ (∃ pre post, simpleTypeValidatorText "TFoo" "string" c6RWs
          = pre ++ enumCheckBlock "TFoo" c6RWs.Enum ++ post)
      ∧ ("oneof=" ++ String.intercalate " " c6RClean.Enum)
          ∈ buildValidateTagRules "string" c6RClean false := by
  refine ⟨(enum_whitespace_guard "TFoo" c6RWs false).1 (by decide) "string"
      "matches=^x$" (by decide),
    (enum_whitespace_guard "TFoo" c6RWs false).2.1 (by decide),
    (enum_whitespace_guard "TFoo" c6RClean false).2.2 (by decide) (by decide)⟩

/-- A ComplexType referencing two undeclared T-identifiers, for the C3
counterexample. -/
def c3CT : ComplexType := { Name := "ct", Elements := [{ Name := "f1", TypeName := "TAaa" }, { Name := "f2", TypeName := "TBbb" }] }

/-- A generator configuration whose file name triggers the safety-net phase. -/
def c3Gen : CodeGenerator := { File := "out/commonTypes.go", Package := "out", ProtoTree := [.complexType c3CT] }

set_option maxRecDepth 10000 in
/-- C3 counterexample: the claim states GenGo is deterministic on a fixed
ProtoTree and configuration.  The safety-net phase iterates a Go map whose
iteration order is unspecified; both orders below are orders of the same
candidate set, yet the two runs produce different output text. -/
theorem genGo_output_depends_on_map_order :
    List.Perm ["TAaa", "TBbb"] (candidatesOf (genGoPhases c3Gen).Field)
      ∧ List.Perm ["TBbb", "TAaa"] (candidatesOf (genGoPhases c3Gen).Field)
      ∧ genGoText c3Gen ["TAaa", "TBbb"] ≠ genGoText c3Gen ["TBbb", "TAaa"] := by
  refine ⟨by decide, by decide, by decide⟩

/-- A list permuted to a list of at most one element equals it. -/
theorem perm_eq_of_length_le_one {l c : List String} (h : List.Perm l c)
    (hc : c.length ≤ 1) : l = c := by
  rcases c with _ | ⟨a, tail⟩
  · exact h.eq_nil
  · have htail : tail = [] := by
      simp only [List.length_cons] at hc
      exact List.length_eq_zero.mp (by omega)
    subst htail
    exact List.perm_singleton.mp h

/-- A fold whose step fixes every state at the elements outside a filter
equals the fold over the filtered list. -/
theorem foldl_filter_id {α β : Type} (f : β → α → β) (P : α → Bool)
    (h : ∀ b a, P a = false → f b a = b) :
    ∀ (l : List α) (b : β), l.foldl f b = (l.filter P).foldl f b := by
  intro l
  induction l with
  | nil => intro b; rfl
  | cons x xs ih =>
    intro b
    by_cases hx : P x
    · simp [List.filter_cons, hx, List.foldl_cons, ih]
    · have hfx : f b x = b := h b x (by simpa using hx)
      simp [List.filter_cons, hx, List.foldl_cons, hfx, ih]

/-- The safety-net loop body fixes the state at every name the safety net
does not emit. -/
theorem safetyNetStep_id (gen0 b : CodeGenerator) (a : String)
    (ha : safetyNetEmits gen0 a = false) :
    safetyNetStep (safetyNetDeclared gen0) b a = b := by
  simp only [safetyNetEmits, Bool.not_eq_false', Bool.or_eq_true] at ha
  unfold safetyNetStep
  by_cases h1 : ((safetyNetDeclared gen0).contains a
      || (safetyNetDeclared gen0).contains (lowerFirst a)) = true
  · rw [if_pos h1]
  · rcases ha with (h | h) | h
    · refine absurd ?_ h1
      simp only [Bool.or_eq_true]
      exact Or.inl h
    · refine absurd ?_ h1
      simp only [Bool.or_eq_true]
      exact Or.inr h
    · rw [if_neg h1, if_pos h]

/-- A safety-net run over any order of the candidate set equals the fold
over the emitting candidates in their candidate-set order. -/
theorem ensureReferencedTypesDeclared_canonical (G : CodeGenerator) (o : List String)
    (ho : List.Perm o (candidatesOf G.Field))
    (hc : ((candidatesOf G.Field).filter (safetyNetEmits G)).length ≤ 1) :
    ensureReferencedTypesDeclared G o
      = ((candidatesOf G.Field).filter (safetyNetEmits G)).foldl
          (safetyNetStep (safetyNetDeclared G)) G := by
  simp only [ensureReferencedTypesDeclared]
  have hm : o.filter (fun n => (candidatesOf G.Field).contains n) = o := by
    apply List.filter_eq_self.mpr
    intro a ha
    simpa using ho.mem_iff.mp ha
  rw [hm, foldl_filter_id _ (safetyNetEmits G) (safetyNetStep_id G) o G,
    perm_eq_of_length_le_one (ho.filter (safetyNetEmits G)) hc]

/-- C3 (amended): the emission passes are deterministic functions of the
ProtoTree and configuration; the only order dependence is the safety-net map
iteration, and names already declared or built-in are skipped without any
effect, so whenever at most one candidate is actually undeclared (has an
alias emitted) the output text is byte-identical across runs regardless of
the iteration order over the whole candidate set. -/
theorem genGo_deterministic_small_safety_net (gen0 : CodeGenerator) (o1 o2 : List String)
    (h1 : List.Perm o1 (candidatesOf (genGoPhases gen0).Field))
    (h2 : List.Perm o2 (candidatesOf (genGoPhases gen0).Field))
    (hc : ((candidatesOf (genGoPhases gen0).Field).filter
        (safetyNetEmits (genGoPhases gen0))).length ≤ 1) :
    genGoText gen0 o1 = genGoText gen0 o2 := by
  unfold genGoText genGoSafety
  by_cases hf : strContains (genGoPhases gen0).File "commonTypes.go"
  · simp only [hf, if_true]
    rw [ensureReferencedTypesDeclared_canonical (genGoPhases gen0) o1 h1 hc,
      ensureReferencedTypesDeclared_canonical (genGoPhases gen0) o2 h2 hc]
  · simp only [hf, Bool.false_eq_true, if_false]

/-- A generator whose candidate set holds one declared name (TFoo, emitted
for the named SimpleType tFoo) and one undeclared name (TBbb), for the C3
witness. -/
def c3GenW : CodeGenerator := { File := "out/commonTypes.go", Package := "out", ProtoTree := [.simpleType { Name := "tFoo", Base := "string" }, .complexType { Name := "ct", Elements := [{ Name := "f1", TypeName := "TBbb" }, { Name := "f2", TypeRef := "tFoo" }] }] }

set_option maxRecDepth 10000 in
/-- C3 amended-claim witness: with two candidates of which only one is
undeclared, two different iteration orders give byte-identical output. -/
theorem genGo_deterministic_small_safety_net_witness :
    genGoText c3GenW ["TFoo", "TBbb"] = genGoText c3GenW ["TBbb", "TFoo"] :=
  genGo_deterministic_small_safety_net c3GenW ["TFoo", "TBbb"] ["TBbb", "TFoo"]
    (by decide) (by decide) (by decide)

/-- A well-nested trace: an element wrapping a named SimpleType with a
restriction, for the C9 counterexample. -/
def c9Trace : List Event := [.openElement { Name := "e" }, .openSimpleType (some "x"), .openRestriction "xs:string", .closeRestriction, .closeSimpleType, .closeElement]

/-- C9 counterexample: the claim states a named SimpleType closed outside a
union is appended to ProtoTree exactly once.  In this trace the named
SimpleType x closes outside any union, yet EndRestriction has already popped
and projected it onto the open element, so it is appended zero times and the
final tree holds only the element. -/
theorem named_simpletype_under_element_never_appended :
    countSimpleTypesNamed (runEvents {} c9Trace).ProtoTree "x" = 0
      ∧ (runEvents {} c9Trace).InUnion = false
      ∧ (runEvents {} c9Trace).ProtoTree
        = [.element { Name := "e", TypeName := "string" }] := by
  refine ⟨by decide, by decide, by decide⟩

/-- C9 (amended): at the close of a simpleType scope, an anonymous top
SimpleType under an open Attribute (or, with no attribute open, an open
Element) is projected onto that field and popped without touching ProtoTree;
a named SimpleType closed outside a union is appended exactly once and
popped; and at the close of a restriction scope with an open Attribute or
Element the top SimpleType — named or anonymous — is popped and projected,
never appended, which is why a named SimpleType nested in such a scope never
reaches ProtoTree.  The element case is covered with no open ComplexType,
with an open ComplexType holding no elements yet, and with an open
ComplexType whose last element slot is additionally patched with the
projected element. -/
theorem simpletype_scope_close_behavior (opt : Options) (st : SimpleType)
    (rest : List SimpleType) (h : opt.simpleTypeStack = st :: rest) :
    (st.Name = "" → ∀ a arest, opt.attributeStack = a :: arest →
        EndSimpleType opt = { opt with
          attributeStack := ({ a with TypeName := st.Base } :: arest),
          simpleTypeStack := rest }
        ∧ (EndSimpleType opt).ProtoTree = opt.ProtoTree)
    ∧ (st.Name = "" → opt.attributeStack = [] → ∀ e erest, opt.elementStack = e :: erest →
        EndSimpleType opt = { opt with
          elementStack := ({ e with TypeName := st.Base } :: erest),
          simpleTypeStack := rest }
        ∧ (EndSimpleType opt).ProtoTree = opt.ProtoTree)
    ∧ (st.Name ≠ "" → opt.InUnion = false →
        EndSimpleType opt = { opt with
          ProtoTree := opt.ProtoTree ++ [.simpleType st],
          simpleTypeStack := rest, CurrentEle := "" })
    ∧ (∀ a arest, opt.attributeStack = a :: arest →
        EndRestriction opt = { opt with
          simpleTypeStack := rest,
          attributeStack :=
            ({ a with
                TypeName := GetValueType st.Base opt.ProtoTree,
                Restriction := st.Restriction } :: arest),
          CurrentEle := "" }
        ∧ (EndRestriction opt).ProtoTree = opt.ProtoTree)
    ∧ (opt.attributeStack = [] → opt.complexTypeStack = [] →
        ∀ e erest, opt.elementStack = e :: erest →
        EndRestriction opt = { opt with
          simpleTypeStack := rest,
          elementStack :=
            ({ e with
                TypeName := GetValueType st.Base opt.ProtoTree,
                Restriction := st.Restriction } :: erest),
          CurrentEle := "" }
        ∧ (EndRestriction opt).ProtoTree = opt.ProtoTree)
    ∧ (opt.attributeStack = [] → ∀ ct crest, opt.complexTypeStack = ct :: crest →
        ct.Elements = [] →
        ∀ e erest, opt.elementStack = e :: erest →
        EndRestriction opt = { opt with
          simpleTypeStack := rest,
          elementStack :=
            ({ e with
                TypeName := GetValueType st.Base opt.ProtoTree,
                Restriction := st.Restriction } :: erest),
          CurrentEle := "" }
        ∧ (EndRestriction opt).ProtoTree = opt.ProtoTree)
    ∧ (opt.attributeStack = [] → ∀ ct crest, opt.complexTypeStack = ct :: crest →
        ct.Elements ≠ [] →
        ∀ e erest, opt.elementStack = e :: erest →
        EndRestriction opt = { opt with
          simpleTypeStack := rest,
          elementStack :=
            ({ e with
                TypeName := GetValueType st.Base opt.ProtoTree,
                Restriction := st.Restriction } :: erest),
          CurrentEle := "",
          complexTypeStack :=
            ({ ct with
                Elements := ct.Elements.set (ct.Elements.length - 1)
                  { e with
                    TypeName := GetValueType st.Base opt.ProtoTree,
                    Restriction := st.Restriction } } :: crest) }
        ∧ (EndRestriction opt).ProtoTree = opt.ProtoTree) := by
  refine ⟨?_, ?_, ?_, ?_, ?_, ?_, ?_⟩
  · intro hname a arest ha
    have hres : EndSimpleType opt = { opt with
        attributeStack := ({ a with TypeName := st.Base } :: arest),
        simpleTypeStack := rest } := by
      simp only [EndSimpleType, h, ha, hname]
      simp
    exact ⟨hres, by rw [hres]⟩
  · intro hname hattr e erest he
    have hres : EndSimpleType opt = { opt with
        elementStack := ({ e with TypeName := st.Base } :: erest),
        simpleTypeStack := rest } := by
      simp only [EndSimpleType, h, hattr, he, hname]
      simp
    exact ⟨hres, by rw [hres]⟩
  · intro hname hunion
    simp only [EndSimpleType, h, hunion]
    have hb : (st.Name == "") = false := by
      simpa using hname
    cases hattr : opt.attributeStack <;> cases helem : opt.elementStack <;>
      simp [hb, hattr, helem]
  · intro a arest ha
    have hres : EndRestriction opt = { opt with
        simpleTypeStack := rest,
        attributeStack :=
          ({ a with
              TypeName := GetValueType st.Base opt.ProtoTree,
              Restriction := st.Restriction } :: arest),
        CurrentEle := "" } := by
      simp only [EndRestriction, h, ha]
      simp
    exact ⟨hres, by rw [hres]⟩
  · intro hattr hct e erest he
    have hres : EndRestriction opt = { opt with
        simpleTypeStack := rest,
        elementStack :=
          ({ e with
              TypeName := GetValueType st.Base opt.ProtoTree,
              Restriction := st.Restriction } :: erest),
        CurrentEle := "" } := by
      simp only [EndRestriction, h, hattr, he, hct]
      simp
    exact ⟨hres, by rw [hres]⟩
  · intro hattr ct crest hct hel e erest he
    have hres : EndRestriction opt = { opt with
        simpleTypeStack := rest,
        elementStack :=
          ({ e with
              TypeName := GetValueType st.Base opt.ProtoTree,
              Restriction := st.Restriction } :: erest),
        CurrentEle := "" } := by
      simp only [EndRestriction, h, hattr, he, hct]
      simp [hel]
    exact ⟨hres, by rw [hres]⟩
  · intro hattr ct crest hct hne e erest he
    have hlen : 0 < ct.Elements.length := List.length_pos.mpr hne
    have hres : EndRestriction opt = { opt with
        simpleTypeStack := rest,
        elementStack :=
          ({ e with
              TypeName := GetValueType st.Base opt.ProtoTree,
              Restriction := st.Restriction } :: erest),
        CurrentEle := "",
        complexTypeStack :=
          ({ ct with
              Elements := ct.Elements.set (ct.Elements.length - 1)
                { e with
                  TypeName := GetValueType st.Base opt.ProtoTree,
                  Restriction := st.Restriction } } :: crest) } := by
      simp only [EndRestriction, h, hattr, he, hct]
      simp [hlen]
    exact ⟨hres, by rw [hres]⟩

/-- A state with an anonymous SimpleType open under an attribute, for the C9
witness. -/
def c9OptB : Options := { simpleTypeStack := [{ Base := "string" }], attributeStack := [{ Name := "at" }] }

/-- A state with a restricted SimpleType open under an attribute. -/
def c9OptA : Options := { simpleTypeStack := [{ Base := "string", Restriction := { HasLength := true, Length := 2 } }], attributeStack := [{ Name := "at" }] }

/-- A state with a named SimpleType on top and nothing else open. -/
def c9OptN : Options := { simpleTypeStack := [{ Name := "x", Base := "string" }] }

/-- A state with a restricted SimpleType open under an element inside a
ComplexType that already holds an element, for the patch case of the C9
witness. -/
def c9OptC : Options := { simpleTypeStack := [{ Base := "string", Restriction := { HasLength := true, Length := 2 } }], elementStack := [{ Name := "el" }], complexTypeStack := [{ Name := "ct", Elements := [{ Name := "prev" }] }] }

/-- C9 amended-claim witness: the scope-close characterization applied at an
anonymous inline SimpleType (projected, not appended), a named top-level one
(appended once), a restriction close under an open attribute (popped and
projected, tree untouched), and a restriction close under an element inside
a ComplexType (popped, projected, last element slot patched, tree
untouched). -/
theorem simpletype_scope_close_behavior_witness :
    (EndSimpleType c9OptB = { c9OptB with
        attributeStack := [{ Name := "at", TypeName := "string" }],
        simpleTypeStack := [] }
      ∧ (EndSimpleType c9OptB).ProtoTree = c9OptB.ProtoTree)
    ∧ EndSimpleType c9OptN = { c9OptN with
        ProtoTree := [.simpleType { Name := "x", Base := "string" }],
        simpleTypeStack := [], CurrentEle := "" }
    ∧ (EndRestriction c9OptA = { c9OptA with
        simpleTypeStack := [],
        attributeStack := [{ Name := "at", TypeName := "string", Restriction := { HasLength := true, Length := 2 } }],
        CurrentEle := "" }
      ∧ (EndRestriction c9OptA).ProtoTree = c9OptA.ProtoTree)
    ∧ (EndRestriction c9OptC = { c9OptC with
        simpleTypeStack := [],
        elementStack := [{ Name := "el", TypeName := "string", Restriction := { HasLength := true, Length := 2 } }],
        CurrentEle := "",
        complexTypeStack := [{ Name := "ct", Elements := [{ Name := "el", TypeName := "string", Restriction := { HasLength := true, Length := 2 } }] }] }
      ∧ (EndRestriction c9OptC).ProtoTree = c9OptC.ProtoTree) := by
  refine ⟨(simpletype_scope_close_behavior c9OptB { Base := "string" } [] rfl).1
      rfl { Name := "at" } [] rfl,
    (simpletype_scope_close_behavior c9OptN { Name := "x", Base := "string" } [] rfl).2.2.1
      (by decide) rfl,
    (simpletype_scope_close_behavior c9OptA
        { Base := "string", Restriction := { HasLength := true, Length := 2 } } [] rfl).2.2.2.1
      { Name := "at" } [] rfl,
    (simpletype_scope_close_behavior c9OptC
        { Base := "string", Restriction := { HasLength := true, Length := 2 } } [] rfl).2.2.2.2.2.2
      rfl { Name := "ct", Elements := [{ Name := "prev" }] } [] rfl (by decide)
      { Name := "el" } [] rfl⟩

end Xgen
